import Mathlib

/-!
# Deposit velocity limits (`main.go`)

A shallow embedding of `Account.Deposit`, of the part of Go's `time.Time` that
it reads (`Year`, `Month`, `Day`, `ISOWeek` and comparison with the zero
`Transaction`) and of the loop of `main`, followed by theorems about the
limiter.

Modelling conventions.

* `float64`. `Transaction`, `Account` and `Deposit` are given twice. In the
  namespace `Binary64` an amount is an `F64`, which is NaN, an infinity or a
  finite value, Go's `+` is `F64.add` (the exact sum rounded to binary64, to
  nearest and ties to even) and Go's `>` is `F64.gt` (false on NaN): what the
  ceiling checks decide, and what a NaN amount does to them, is stated there.
  Outside `Binary64` the same program is written over exact rationals, with
  the `+` and `>` of `ℚ`, so without rounding, infinities and NaN: it carries
  the statements on the window reset, on the fields that a call writes and on
  runs.
* Go's `int` (the deposit count and its limit) is `Int`; the count grows by
  one per accepted deposit and is tested against the limit before it grows,
  so no wrap-around is modelled.
* `log.Println` and `fmt.Println` calls only write text and are dropped.
* In the loop of `main`, JSON decoding and the parsing of amounts are Go
  library code: input and test lines are decoded records (or `none` when
  decoding fails) and the parser is a parameter. The map `customers` is a
  function from customer ids to accounts.
* A `time.Time` is its three fields: `wall` (the nanosecond within the second,
  for a time without monotonic reading, as produced by JSON decoding), `ext`
  (seconds since January 1 of year 1, 00:00:00 UTC) and `loc`. The location is
  `none` for UTC (Go's nil pointer) and `some off` for any other location,
  `off` being its offset east of UTC, in seconds, at that instant.
-/

set_option autoImplicit false

namespace DepositLimits

/-! ## `time.Time` -/

/-- Go's `time.Time`: `wall`, `ext` and `loc` (see the conventions above). -/
structure Time where
  wall : Nat
  ext : Int
  loc : Option Int
deriving DecidableEq

namespace Time

/-- Offset east of UTC, in seconds, of the location of `t` at `t`. -/
def offset (t : Time) : Int :=
  match t.loc with
  | none => 0
  | some off => off

/-- Go's `Time.abs`: the seconds since January 1 of year 1 as read on the
clock of the location of `t`. -/
def abs (t : Time) : Int := t.ext + t.offset

end Time

def secondsPerDay : Int := 86400

def daysPer400Years : Int := 365 * 400 + 97

def daysPer100Years : Int := 365 * 100 + 24

def daysPer4Years : Int := 365 * 4 + 1

/-- Go's `isLeap`. -/
def isLeap (year : Int) : Bool :=
  year % 4 == 0 && (year % 100 != 0 || year % 400 == 0)

/-- Go's `daysBefore` table: `daysBefore m` is the number of days in a
non-leap year before month `m + 1` starts. -/
def daysBefore (m : Int) : Int :=
  if m = 0 then 0
  else if m = 1 then 31
  else if m = 2 then 31 + 28
  else if m = 3 then 31 + 28 + 31
  else if m = 4 then 31 + 28 + 31 + 30
  else if m = 5 then 31 + 28 + 31 + 30 + 31
  else if m = 6 then 31 + 28 + 31 + 30 + 31 + 30
  else if m = 7 then 31 + 28 + 31 + 30 + 31 + 30 + 31
  else if m = 8 then 31 + 28 + 31 + 30 + 31 + 30 + 31 + 31
  else if m = 9 then 31 + 28 + 31 + 30 + 31 + 30 + 31 + 31 + 30
  else if m = 10 then 31 + 28 + 31 + 30 + 31 + 30 + 31 + 31 + 30 + 31
  else if m = 11 then 31 + 28 + 31 + 30 + 31 + 30 + 31 + 31 + 30 + 31 + 30
  else 31 + 28 + 31 + 30 + 31 + 30 + 31 + 31 + 30 + 31 + 30 + 31

/-- The year and the day within the year (from 0) of day number `d`, day 0
being January 1 of year 1: the first half of Go's `absDate`, by 400-, 100-,
4- and 1-year cycles. -/
def absYearDay (d : Int) : Int × Int :=
  let n400 := d / daysPer400Years
  let d1 := d - daysPer400Years * n400
  let n100 := d1 / daysPer100Years
  let n100 := n100 - n100 / 4
  let d2 := d1 - daysPer100Years * n100
  let n4 := d2 / daysPer4Years
  let d3 := d2 - daysPer4Years * n4
  let n1 := d3 / 365
  let n1 := n1 - n1 / 4
  let d4 := d3 - 365 * n1
  (400 * n400 + 100 * n100 + 4 * n4 + n1 + 1, d4)

/-- The month (January is 1) and the day of the month (from 1) of day `yday`
of `year`: the second half of Go's `absDate`. -/
def monthDay (year yday : Int) : Int × Int :=
  if isLeap year && yday == 31 + 29 - 1 then (2, 29)
  else
    let day := if isLeap year && decide (yday > 31 + 29 - 1) then yday - 1 else yday
    let month := day / 31
    let fin := daysBefore (month + 1)
    if day ≥ fin then (month + 2, day - fin + 1)
    else (month + 1, day - daysBefore month + 1)

/-- The day number of January 1 of `year` (for the proofs; Go has no such
function). -/
def yearStart (year : Int) : Int :=
  365 * (year - 1) + (year - 1) / 4 - (year - 1) / 100 + (year - 1) / 400

/-- The day within the year (from 0) of a day of the month, in a leap year or
not (for the proofs; Go has no such function). -/
def dayOfYear (leap : Bool) (month day : Int) : Int :=
  daysBefore (month - 1) + day - 1 + (if leap && decide (month ≥ 3) then 1 else 0)

namespace Time

/-- Day number of `t` on the clock of its location, day 0 being January 1 of
year 1. -/
def days (t : Time) : Int := t.abs / secondsPerDay

/-- Go's `Time.Year`. -/
def Year (t : Time) : Int := (absYearDay t.days).1

/-- Go's `Time.Month`. -/
def Month (t : Time) : Int :=
  (monthDay (absYearDay t.days).1 (absYearDay t.days).2).1

/-- Go's `Time.Day`: the day of the month. -/
def Day (t : Time) : Int :=
  (monthDay (absYearDay t.days).1 (absYearDay t.days).2).2

/-- Go's `absWeekday` on day numbers, Sunday being 0: January 1 of year 1 is a
Monday. -/
def weekday (t : Time) : Int := (t.days + 1) % 7

/-- The day number of the Thursday of the Monday-to-Sunday week of `t`. -/
def thursday (t : Time) : Int :=
  let d := 4 - t.weekday
  t.days + (if d = 4 then -3 else d)

/-- Go's `Time.ISOWeek`: the year of the Thursday of the week of `t`, and the
number of that week in that year. -/
def ISOWeek (t : Time) : Int × Int :=
  ((absYearDay t.thursday).1, (absYearDay t.thursday).2 / 7 + 1)

/-- Go's `Time.After`. -/
def After (t u : Time) : Bool :=
  decide (t.ext > u.ext) || (t.ext == u.ext && decide (t.wall > u.wall))

end Time

/-- Go's `time.Date(year, month, day, hour, min, 0, 0, loc)` for a date given
by its day number: a helper to write timestamps down. -/
def mkTime (days hour min : Int) (loc : Option Int) : Time :=
  let off := match loc with
    | none => 0
    | some o => o
  { wall := 0, ext := days * secondsPerDay + hour * 3600 + min * 60 - off, loc := loc }

/-! ## The data model -/

/-- Go's `Transaction`. `Amount` is filled in by the caller from `RawAmount`. -/
structure Transaction where
  ID : String
  CustomerID : String
  RawAmount : String
  Amount : ℚ
  Time : Time
deriving DecidableEq

/-- Go's `Transaction{}`: every field at its zero value. -/
def Transaction.zero : Transaction :=
  { ID := "", CustomerID := "", RawAmount := "", Amount := 0,
    Time := { wall := 0, ext := 0, loc := none } }

/-- Go's `Account`. -/
structure Account where
  CustomerID : String
  Balance : ℚ
  DailyDepositLimit : ℚ
  WeeklyDepositLimit : ℚ
  DailyDepositVelocity : ℚ
  WeeklyDepositVelocity : ℚ
  DailyDepositCountLimit : Int
  DailyDepositCount : Int
  LastDeposit : Transaction
deriving DecidableEq

/-! ## `Account.Deposit` -/

/-- The first block of `Deposit` (the `if account.LastDeposit != Transaction{}`
statement): the account after the window reset. -/
def Account.resetWindow (account : Account) (t : Transaction) : Account :=
  if account.LastDeposit ≠ Transaction.zero then
    let lastDepositWeek := account.LastDeposit.Time.ISOWeek.2
    let transactionWeek := t.Time.ISOWeek.2
    if account.LastDeposit.Time.Year ≠ t.Time.Year
        ∨ account.LastDeposit.Time.Month ≠ t.Time.Month
        ∨ lastDepositWeek ≠ transactionWeek then
      { account with
        WeeklyDepositVelocity := 0
        DailyDepositVelocity := 0
        DailyDepositCount := 0 }
    else if account.LastDeposit.Time.Day ≠ t.Time.Day then
      { account with
        DailyDepositVelocity := 0
        DailyDepositCount := 0 }
    else account
  else account

/-- The rest of `Deposit`, on the account as the window reset left it: the
three ceiling checks, then the commit. Returns the account and the result. -/
def Account.evaluate (account : Account) (t : Transaction) : Account × Bool :=
  if account.WeeklyDepositVelocity + t.Amount > account.WeeklyDepositLimit then
    (account, false)
  else if account.DailyDepositVelocity + t.Amount > account.DailyDepositLimit then
    (account, false)
  else if account.DailyDepositCount + 1 > account.DailyDepositCountLimit then
    (account, false)
  else
    ({ account with
        WeeklyDepositVelocity := account.WeeklyDepositVelocity + t.Amount
        DailyDepositVelocity := account.DailyDepositVelocity + t.Amount
        DailyDepositCount := account.DailyDepositCount + 1
        Balance := account.Balance + t.Amount
        LastDeposit := t },
      true)

/-- Go's `(*Account).Deposit`: the account after the call and the result. -/
def Account.Deposit (account : Account) (t : Transaction) : Account × Bool :=
  (account.resetWindow t).evaluate t

/-- The account that `main` creates for a customer it has not seen, with the
limits as parameters (`main` passes 5000, 20000 and 3). -/
def newAccount (customerID : String) (dailyLimit weeklyLimit : ℚ) (dailyLoadLimit : Int) :
    Account :=
  { CustomerID := customerID
    Balance := 0
    DailyDepositLimit := dailyLimit
    WeeklyDepositLimit := weeklyLimit
    DailyDepositVelocity := 0
    WeeklyDepositVelocity := 0
    DailyDepositCountLimit := dailyLoadLimit
    DailyDepositCount := 0
    LastDeposit := Transaction.zero }

/-! ## `float64` and `Deposit` on it -/

/-- A `float64` value: NaN, an infinity, or a finite value, given by the
rational number it stands for. The two zeros are both `fin 0`: Go's `+`, `>`
and `==` on the values of this program do not tell them apart. -/
inductive F64 where
  | nan
  | posInf
  | negInf
  | fin (q : ℚ)
deriving DecidableEq

/-- The power `2 ^ e` for an integer exponent. -/
def pow2 (e : Int) : ℚ :=
  if 0 ≤ e then ((2 ^ e.toNat : Nat) : ℚ) else 1 / ((2 ^ (-e).toNat : Nat) : ℚ)

/-- Search for the binary logarithm: the least `j ≥ k` with `n < 2 ^ (j + 1)`,
in at most `fuel` steps. -/
def log2Aux : Nat → Nat → Nat → Nat
  | 0, _, k => k
  | fuel + 1, n, k => if n < 2 ^ (k + 1) then k else log2Aux fuel n (k + 1)

/-- The binary logarithm of a positive natural number, rounded down. -/
def log2 (n : Nat) : Nat := log2Aux n n 0

/-- The binary logarithm of a positive rational number, rounded down. -/
def floorLog2 (a : ℚ) : Int :=
  let e0 : Int := (log2 a.num.natAbs : Int) - (log2 a.den : Int)
  if pow2 e0 ≤ a then e0 else e0 - 1

/-- The nearest integer to a non-negative rational, ties to the even one. -/
def roundHalfEven (m : ℚ) : Int :=
  let f := Rat.floor m
  let r := m - (f : ℚ)
  if r < 1 / 2 then f
  else if r > 1 / 2 then f + 1
  else if f % 2 = 0 then f else f + 1

/-- IEEE 754 rounding to binary64, to nearest and ties to even: 53 significant
bits, least exponent -1022 (below it the spacing of the values stays
`2 ^ (-1074)`), and an infinity from `2 ^ 1024` on. -/
def round64 (q : ℚ) : F64 :=
  if q = 0 then F64.fin 0
  else
    let a := |q|
    let e := max (floorLog2 a) (-1022)
    let ulp := pow2 (e - 52)
    let v := (roundHalfEven (a / ulp) : ℚ) * ulp
    if v ≥ pow2 1024 then (if q > 0 then F64.posInf else F64.negInf)
    else F64.fin (if q > 0 then v else -v)

namespace F64

/-- Go's `+` on `float64`. -/
def add : F64 → F64 → F64
  | nan, _ => nan
  | _, nan => nan
  | posInf, negInf => nan
  | negInf, posInf => nan
  | posInf, _ => posInf
  | _, posInf => posInf
  | negInf, _ => negInf
  | _, negInf => negInf
  | fin a, fin b => round64 (a + b)

/-- Go's `>` on `float64`: false when an operand is NaN. -/
def gt : F64 → F64 → Bool
  | nan, _ => false
  | _, nan => false
  | posInf, posInf => false
  | posInf, _ => true
  | _, posInf => false
  | negInf, _ => false
  | _, negInf => true
  | fin a, fin b => decide (a > b)

/-- Go's `<=` on `float64`: false when an operand is NaN. -/
def le : F64 → F64 → Bool
  | nan, _ => false
  | _, nan => false
  | _, posInf => true
  | posInf, _ => false
  | negInf, _ => true
  | _, negInf => false
  | fin a, fin b => decide (a ≤ b)

end F64

namespace Binary64

/-- Go's `Transaction`, the amount a `float64`. -/
structure Transaction where
  ID : String
  CustomerID : String
  RawAmount : String
  Amount : F64
  Time : Time
deriving DecidableEq

/-- Go's `Transaction{}`: every field at its zero value. -/
def Transaction.zero : Transaction :=
  { ID := "", CustomerID := "", RawAmount := "", Amount := F64.fin 0,
    Time := { wall := 0, ext := 0, loc := none } }

/-- Go's `Account`, the amounts `float64`. -/
structure Account where
  CustomerID : String
  Balance : F64
  DailyDepositLimit : F64
  WeeklyDepositLimit : F64
  DailyDepositVelocity : F64
  WeeklyDepositVelocity : F64
  DailyDepositCountLimit : Int
  DailyDepositCount : Int
  LastDeposit : Transaction
deriving DecidableEq

/-- The first block of `Deposit` (the `if account.LastDeposit != Transaction{}`
statement): the account after the window reset. Go's `!=` on the two structs
compares the amounts with `==`; the amount of `Transaction{}` is 0, never NaN,
so it is the inequality of the values here. -/
def Account.resetWindow (account : Account) (t : Transaction) : Account :=
  if account.LastDeposit ≠ Transaction.zero then
    let lastDepositWeek := account.LastDeposit.Time.ISOWeek.2
    let transactionWeek := t.Time.ISOWeek.2
    if account.LastDeposit.Time.Year ≠ t.Time.Year
        ∨ account.LastDeposit.Time.Month ≠ t.Time.Month
        ∨ lastDepositWeek ≠ transactionWeek then
      { account with
        WeeklyDepositVelocity := F64.fin 0
        DailyDepositVelocity := F64.fin 0
        DailyDepositCount := 0 }
    else if account.LastDeposit.Time.Day ≠ t.Time.Day then
      { account with
        DailyDepositVelocity := F64.fin 0
        DailyDepositCount := 0 }
    else account
  else account

/-- The rest of `Deposit`, on the account as the window reset left it: the
three ceiling checks, then the commit. Returns the account and the result. -/
def Account.evaluate (account : Account) (t : Transaction) : Account × Bool :=
  if (account.WeeklyDepositVelocity.add t.Amount).gt account.WeeklyDepositLimit then
    (account, false)
  else if (account.DailyDepositVelocity.add t.Amount).gt account.DailyDepositLimit then
    (account, false)
  else if account.DailyDepositCount + 1 > account.DailyDepositCountLimit then
    (account, false)
  else
    ({ account with
        WeeklyDepositVelocity := account.WeeklyDepositVelocity.add t.Amount
        DailyDepositVelocity := account.DailyDepositVelocity.add t.Amount
        DailyDepositCount := account.DailyDepositCount + 1
        Balance := account.Balance.add t.Amount
        LastDeposit := t },
      true)

/-- Go's `(*Account).Deposit`: the account after the call and the result. -/
def Account.Deposit (account : Account) (t : Transaction) : Account × Bool :=
  (account.resetWindow t).evaluate t

/-- The account that `main` creates for a customer it has not seen, with the
limits as parameters (`main` passes 5000, 20000 and 3). -/
def newAccount (customerID : String) (dailyLimit weeklyLimit : F64) (dailyLoadLimit : Int) :
    Account :=
  { CustomerID := customerID
    Balance := F64.fin 0
    DailyDepositLimit := dailyLimit
    WeeklyDepositLimit := weeklyLimit
    DailyDepositVelocity := F64.fin 0
    WeeklyDepositVelocity := F64.fin 0
    DailyDepositCountLimit := dailyLoadLimit
    DailyDepositCount := 0
    LastDeposit := Transaction.zero }

/-- `Deposit` applied to the transactions of a list in order, each call on the
account the previous one left: the final account and the results, in order. -/
def depositAll : Account → List Transaction → Account × List Bool
  | account, [] => (account, [])
  | account, t :: ts =>
    let r := account.Deposit t
    let rest := depositAll r.1 ts
    (rest.1, r.2 :: rest.2)

/-- A transaction of customer `c` with the given id, amount and time: a helper
to write examples down. -/
def tx (id : String) (amount : F64) (time : Time) : Transaction :=
  { ID := id, CustomerID := "c", RawAmount := "", Amount := amount, Time := time }

/-- Three deposits at noon UTC on Monday, January 29, 2024: NaN (the value of
`strconv.ParseFloat` for `NaN`), 6000 and 100000. -/
def nanFeed : List Transaction :=
  [tx "1" F64.nan (mkTime 738913 12 0 none),
   tx "2" (F64.fin 6000) (mkTime 738913 12 0 none),
   tx "3" (F64.fin 100000) (mkTime 738913 12 0 none)]

/-- Three deposits at noon UTC on Monday, January 29, 2024, with the values of
`strconv.ParseFloat` for `4605.64`, `5.18` and `389.18`. -/
def decimalFeed : List Transaction :=
  [tx "1" (round64 (460564 / 100)) (mkTime 738913 12 0 none),
   tx "2" (round64 (518 / 100)) (mkTime 738913 12 0 none),
   tx "3" (round64 (38918 / 100)) (mkTime 738913 12 0 none)]

end Binary64

/-! ## The loop of `main` -/

/-- The `defaultDailyLimit` of `main`. -/
def defaultDailyLimit : ℚ := 5000

/-- The `defaultWeeklyLimit` of `main`. -/
def defaultWeeklyLimit : ℚ := 20000

/-- The `defaultDailyLoadLimit` of `main`. -/
def defaultDailyLoadLimit : Int := 3

/-- Go's `Test`: a decoded line of the file of expected results. -/
structure Test where
  ID : String
  CustomerID : String
  Accepted : Bool
deriving DecidableEq

/-- What `main` carries from one iteration of its loop to the next: the global
map `customers` (the pointer to an account is modelled by the account it
points to), the slice `transactionIDs` and the lines that `testReader` has
still to deliver, decoded, `none` being a line that `json.Unmarshal` rejects.
`calls` is not a variable of the program: it records the arguments of the
calls of `Deposit`, in order. -/
structure LoopState where
  customers : String → Option Account
  transactionIDs : List String
  tests : List (Option Test)
  calls : List Transaction

/-- How an iteration of the loop ends: the loop goes on with the next line,
`main` returns because the input has ended, `main` returns because account and
test disagree, or `main` panics. -/
inductive Status where
  | goesOn
  | inputEnded
  | mismatch
  | panicked
deriving DecidableEq

/-- The state of `main` when it enters its loop. -/
def initialState (tests : List (Option Test)) : LoopState :=
  { customers := fun _ => none, transactionIDs := [], tests := tests, calls := [] }

/-- The account of a customer after the `if _, ok := customers[...]; !ok`
statement of `main`: the one in the map, or a new one with the default
limits. -/
def customerAccount (customers : String → Option Account) (customerID : String) : Account :=
  match customers customerID with
  | some account => account
  | none => newAccount customerID defaultDailyLimit defaultWeeklyLimit defaultDailyLoadLimit

/-- The body of the loop of `main` for a decoded input line `t`. The function
`parseAmount` stands for `strconv.ParseFloat(strings.Replace(raw, "$", "", 1), 64)`
of Go's standard library, `none` being an error. On a panic the state is
returned as it was. -/
def iteration (parseAmount : String → Option ℚ) (s : LoopState) (t : Transaction) :
    LoopState × Status :=
  if s.transactionIDs.any (fun tID => tID == t.ID) then (s, Status.goesOn)
  else
    match parseAmount t.RawAmount with
    | none => (s, Status.panicked)
    | some amount =>
      let t := { t with Amount := amount }
      match s.tests with
      | [] => (s, Status.panicked)
      | none :: _ => (s, Status.panicked)
      | some test :: tests =>
        let r := (customerAccount s.customers t.CustomerID).Deposit t
        let s1 : LoopState :=
          { customers := fun id => if id = t.CustomerID then some r.1 else s.customers id
            transactionIDs := s.transactionIDs
            tests := tests
            calls := s.calls ++ [t] }
        if r.1.CustomerID ≠ test.CustomerID then (s1, Status.mismatch)
        else if r.2 ≠ test.Accepted then (s1, Status.mismatch)
        else ({ s1 with transactionIDs := s.transactionIDs ++ [t.ID] }, Status.goesOn)

/-- The loop of `main` over the lines of the input file (those that end with a
newline), decoded, `none` being a line that `json.Unmarshal` rejects. -/
def mainLoop (parseAmount : String → Option ℚ) :
    LoopState → List (Option Transaction) → LoopState × Status
  | s, [] => (s, Status.inputEnded)
  | s, none :: _ => (s, Status.panicked)
  | s, some t :: rest =>
    match iteration parseAmount s t with
    | (s1, Status.goesOn) => mainLoop parseAmount s1 rest
    | r => r

/-! ## Runs and the predicates of the claims -/

/-- `Deposit` applied to the transactions of a list in order, each call on the
account the previous one left: the final account and the results, in order. -/
def depositAll : Account → List Transaction → Account × List Bool
  | account, [] => (account, [])
  | account, t :: ts =>
    let r := account.Deposit t
    let rest := depositAll r.1 ts
    (rest.1, r.2 :: rest.2)

/-- The transactions of a list that `Deposit` accepts when they are applied in
order from `account`. -/
def accepted : Account → List Transaction → List Transaction
  | _, [] => []
  | account, t :: ts =>
    let r := account.Deposit t
    if r.2 then t :: accepted r.1 ts else accepted r.1 ts

/-- The transaction is dated on day number `d`, on the clock of the location
of its timestamp. -/
def Transaction.onDay (d : Int) (t : Transaction) : Bool := decide (t.Time.days = d)

/-- The transaction is dated on the calendar day `day` of month `month` of
`year`, as `Year`, `Month` and `Day` read its timestamp. -/
def Transaction.onDate (year month day : Int) (t : Transaction) : Bool :=
  t.Time.Year == year && t.Time.Month == month && t.Time.Day == day

/-- The sum of the amounts of a list of transactions. -/
def amountSum (l : List Transaction) : ℚ := (l.map (fun t => t.Amount)).sum

/-- The timestamps of a list of transactions are in chronological order: none
is after a later one of the list. -/
def chronological (ts : List Transaction) : Prop :=
  ts.Pairwise (fun s t => s.Time.After t.Time = false)

instance (ts : List Transaction) : Decidable (chronological ts) := by
  unfold chronological; infer_instance

/-- The timestamps of a list of transactions all have the same offset from
UTC. -/
def sameOffset (ts : List Transaction) : Prop :=
  ts.Pairwise (fun s t => s.Time.offset = t.Time.offset)

instance (ts : List Transaction) : Decidable (sameOffset ts) := by
  unfold sameOffset; infer_instance

/-- The invariant of a run on the daily counters: `hist` are the transactions
accepted so far, `cur` is a day number no later transaction comes before. -/
structure DayInv (dl : ℚ) (cl : Int) (a : Account) (hist : List Transaction) (cur : Int) :
    Prop where
  limD : a.DailyDepositLimit = dl
  limC : a.DailyDepositCountLimit = cl
  nonnegD : 0 ≤ a.DailyDepositVelocity
  nonnegC : 0 ≤ a.DailyDepositCount
  ceilD : a.DailyDepositVelocity ≤ dl
  ceilC : a.DailyDepositCount ≤ cl
  current : ∀ d, cur ≤ d →
    amountSum (hist.filter (Transaction.onDay d)) ≤ a.DailyDepositVelocity
      ∧ ((hist.filter (Transaction.onDay d)).length : Int) ≤ a.DailyDepositCount
  past : ∀ d,
    amountSum (hist.filter (Transaction.onDay d)) ≤ dl
      ∧ ((hist.filter (Transaction.onDay d)).length : Int) ≤ cl
  histLe : ∀ x ∈ hist, x.Time.days ≤ cur
  lastLe : a.LastDeposit ≠ Transaction.zero →
    a.LastDeposit.Time.days ≤ cur ∧ ∀ x ∈ hist, x.Time.days ≤ a.LastDeposit.Time.days

/-- An account with the limits of `main` (5000, 20000 and 3) and the given
balance, velocities, count and last deposit. -/
def accountWith (customerID : String) (balance daily weekly : ℚ) (count : Int)
    (last : Transaction) : Account :=
  { CustomerID := customerID
    Balance := balance
    DailyDepositLimit := 5000
    WeeklyDepositLimit := 20000
    DailyDepositVelocity := daily
    WeeklyDepositVelocity := weekly
    DailyDepositCountLimit := 3
    DailyDepositCount := count
    LastDeposit := last }

/-! ## Example data -/

/-- A transaction of customer `c` with the given id, amount and time: a helper
to write examples down. -/
def tx (id : String) (amount : ℚ) (time : Time) : Transaction :=
  { ID := id, CustomerID := "c", RawAmount := "", Amount := amount, Time := time }

/-- Five deposits in chronological order, the fourth stamped in a zone five
hours west of UTC: 00:30, 00:40 and 00:50 UTC on January 2, 2024, then 23:00
at -05:00 on January 1 (04:00 UTC on January 2), then 05:00 UTC on January 2. -/
def mixedOffsetFeed : List Transaction :=
  [tx "1" 1000 (mkTime 738886 0 30 none),
   tx "2" 1000 (mkTime 738886 0 40 none),
   tx "3" 1000 (mkTime 738886 0 50 none),
   tx "4" 1 (mkTime 738885 23 0 (some (-18000))),
   tx "5" 5000 (mkTime 738886 5 0 none)]

/-- Four deposits at noon UTC: three on Monday, January 29, 2024, and one on
Tuesday, January 30. -/
def mondayTuesdayFeed : List Transaction :=
  [tx "1" 3000 (mkTime 738913 12 0 none),
   tx "2" 3000 (mkTime 738913 12 0 none),
   tx "3" 2000 (mkTime 738913 12 0 none),
   tx "4" 500 (mkTime 738914 12 0 none)]

/-- Five deposits of 5000 at noon UTC on the five days from Monday, January
29, 2024 to Friday, February 2, 2024: one ISO week, two months. -/
def monthBoundaryFeed : List Transaction :=
  [tx "1" 5000 (mkTime 738913 12 0 none),
   tx "2" 5000 (mkTime 738914 12 0 none),
   tx "3" 5000 (mkTime 738915 12 0 none),
   tx "4" 5000 (mkTime 738916 12 0 none),
   tx "5" 5000 (mkTime 738917 12 0 none)]

/-- An account with the limits of `main` after one accepted deposit of 3000
at noon UTC on Wednesday, January 31, 2024. -/
def wednesdayAccount : Account :=
  ((newAccount "c" 5000 20000 3).Deposit (tx "1" 3000 (mkTime 738915 12 0 none))).1

/-- A deposit of -100 at noon UTC on Monday, January 29, 2024, and a deposit
of 10 on Tuesday, January 30. -/
def negativeFeed : List Transaction :=
  [tx "1" (-100) (mkTime 738913 12 0 none),
   tx "2" 10 (mkTime 738914 12 0 none)]

/-- Four deposit attempts at noon UTC on Monday, January 29, 2024: 3000, 3000,
1000 and 100. -/
def fourAttemptsFeed : List Transaction :=
  [tx "1" 3000 (mkTime 738913 12 0 none),
   tx "2" 3000 (mkTime 738913 12 0 none),
   tx "3" 1000 (mkTime 738913 12 0 none),
   tx "4" 100 (mkTime 738913 12 0 none)]

/-- Three deposits of 1000 at noon UTC on Monday, January 29, 2024. -/
def threeAcceptedFeed : List Transaction :=
  [tx "1" 1000 (mkTime 738913 12 0 none),
   tx "2" 1000 (mkTime 738913 12 0 none),
   tx "3" 1000 (mkTime 738913 12 0 none)]

/-- A parser for the amounts of the examples. -/
def exampleParse (raw : String) : Option ℚ :=
  if raw = "$3000" then some 3000
  else if raw = "$100" then some 100
  else none

/-- An input line of the examples: amounts are not decoded yet. -/
def inputLine (id customerID raw : String) (time : Time) : Option Transaction :=
  some { ID := id, CustomerID := customerID, RawAmount := raw, Amount := 0, Time := time }

/-- Four input lines of Monday, January 29, 2024, the third repeating the id
of the first. -/
def exampleInput : List (Option Transaction) :=
  [inputLine "1" "c" "$3000" (mkTime 738913 12 0 none),
   inputLine "2" "d" "$100" (mkTime 738913 12 1 none),
   inputLine "1" "c" "$3000" (mkTime 738913 12 2 none),
   inputLine "3" "c" "$3000" (mkTime 738913 12 3 none)]

/-- The expected results for `exampleInput`. -/
def exampleTests : List (Option Test) :=
  [some { ID := "1", CustomerID := "c", Accepted := true },
   some { ID := "2", CustomerID := "d", Accepted := true },
   some { ID := "3", CustomerID := "c", Accepted := false }]

/-! ## The window reset: what it keeps and what it can do -/

/-- The window reset returns the account itself, the account with the daily
counters zeroed, or the account with all three counters zeroed. -/
theorem resetWindow_cases (a : Account) (t : Transaction) :
    a.resetWindow t = a
      ∨ a.resetWindow t = { a with DailyDepositVelocity := 0, DailyDepositCount := 0 }
      ∨ a.resetWindow t = { a with WeeklyDepositVelocity := 0, DailyDepositVelocity := 0,
                                   DailyDepositCount := 0 } := by
  unfold Account.resetWindow
  dsimp only
  split_ifs
  · exact Or.inr (Or.inr rfl)
  · exact Or.inr (Or.inl rfl)
  · exact Or.inl rfl
  · exact Or.inl rfl

theorem resetWindow_frame (a : Account) (t : Transaction) :
    (a.resetWindow t).Balance = a.Balance
      ∧ (a.resetWindow t).LastDeposit = a.LastDeposit
      ∧ (a.resetWindow t).CustomerID = a.CustomerID
      ∧ (a.resetWindow t).DailyDepositLimit = a.DailyDepositLimit
      ∧ (a.resetWindow t).WeeklyDepositLimit = a.WeeklyDepositLimit
      ∧ (a.resetWindow t).DailyDepositCountLimit = a.DailyDepositCountLimit := by
  rcases resetWindow_cases a t with h | h | h
  all_goals rw [h]
  all_goals simp

theorem evaluate_of_false (a : Account) (t : Transaction)
    (h : (a.evaluate t).2 = false) : (a.evaluate t).1 = a := by
  unfold Account.evaluate at h ⊢
  split_ifs at h ⊢
  all_goals simp_all

theorem evaluate_of_true (a : Account) (t : Transaction)
    (h : (a.evaluate t).2 = true) :
    (a.evaluate t).1 =
      { a with
        WeeklyDepositVelocity := a.WeeklyDepositVelocity + t.Amount
        DailyDepositVelocity := a.DailyDepositVelocity + t.Amount
        DailyDepositCount := a.DailyDepositCount + 1
        Balance := a.Balance + t.Amount
        LastDeposit := t } := by
  unfold Account.evaluate at h ⊢
  split_ifs at h ⊢
  all_goals simp_all

/-! ## The calendar -/

theorem yearDay_aux (d a b c e f g : Int)
    (ha : a = d / 146097)
    (hb : b = (d - 146097 * a) / 36524)
    (hc : c = b / 4)
    (he : e = (d - 146097 * a - 36524 * (b - c)) / 1461)
    (hf : f = (d - 146097 * a - 36524 * (b - c) - 1461 * e) / 365)
    (hg : g = f / 4) :
    d = yearStart (400 * a + 100 * (b - c) + 4 * e + (f - g) + 1)
          + (d - 146097 * a - 36524 * (b - c) - 1461 * e - 365 * (f - g))
      ∧ 0 ≤ d - 146097 * a - 36524 * (b - c) - 1461 * e - 365 * (f - g)
      ∧ d - 146097 * a - 36524 * (b - c) - 1461 * e - 365 * (f - g) ≤ 365 := by
  have hb1 : 0 ≤ b - c ∧ b - c ≤ 3 := by omega
  have he1 : 0 ≤ e ∧ e ≤ 24 := by omega
  have hf1 : 0 ≤ f - g ∧ f - g ≤ 3 := by omega
  have q400 : (400 * a + 100 * (b - c) + 4 * e + (f - g) + 1 - 1) / 400 = a := by omega
  have q100 : (400 * a + 100 * (b - c) + 4 * e + (f - g) + 1 - 1) / 100 = 4 * a + (b - c) := by
    omega
  have q4 : (400 * a + 100 * (b - c) + 4 * e + (f - g) + 1 - 1) / 4
      = 100 * a + 25 * (b - c) + e := by omega
  unfold yearStart
  rw [q400, q100, q4]
  refine ⟨by omega, by omega, by omega⟩

/-- A day number is the first day of its year plus its day within the year. -/
theorem absYearDay_spec (d : Int) :
    d = yearStart (absYearDay d).1 + (absYearDay d).2
      ∧ 0 ≤ (absYearDay d).2 ∧ (absYearDay d).2 ≤ 365 :=
  yearDay_aux d _ _ _ _ _ _ rfl rfl rfl rfl rfl rfl

theorem yearStart_succ (y : Int) :
    yearStart y + 365 ≤ yearStart (y + 1) ∧ yearStart (y + 1) ≤ yearStart y + 366 := by
  unfold yearStart
  omega

/-- Days at most three days apart are in the same or in adjacent years. -/
theorem year_near (d e : Int) (h1 : d - 3 ≤ e) (h2 : e ≤ d + 3) :
    (absYearDay e).1 = (absYearDay d).1 - 1 ∨ (absYearDay e).1 = (absYearDay d).1
      ∨ (absYearDay e).1 = (absYearDay d).1 + 1 := by
  obtain ⟨a1, a2, a3⟩ := absYearDay_spec d
  obtain ⟨b1, b2, b3⟩ := absYearDay_spec e
  generalize (absYearDay d).1 = y at *
  generalize (absYearDay e).1 = z at *
  generalize (absYearDay d).2 = yd at *
  generalize (absYearDay e).2 = zd at *
  unfold yearStart at a1 b1
  omega

/-- The month is January exactly on the first 31 days of the year. -/
theorem monthDay_january (y yd : Int) (h : 0 ≤ yd) : (monthDay y yd).1 = 1 ↔ yd ≤ 30 := by
  by_cases h30 : yd ≤ 30
  · have e1 : (isLeap y && yd == 31 + 29 - 1) = false := by
      cases isLeap y
      all_goals simp
      omega
    have e2 : (isLeap y && decide (yd > 31 + 29 - 1)) = false := by
      cases isLeap y
      all_goals simp
      omega
    have e3 : yd / 31 = 0 := by omega
    have e4 : ¬ yd ≥ 31 := by omega
    unfold monthDay
    simp only [e1, e2, Bool.false_eq_true, if_false, e3]
    simp [daysBefore, e4, h30]
  · simp only [h30, iff_false]
    unfold monthDay
    dsimp only
    split_ifs with c1 c2 c3 c4
    all_goals simp only [Bool.and_eq_true, decide_eq_true_eq, beq_iff_eq] at *
    all_goals omega

/-- The day within the year is recovered from the month and the day of the
month. -/
theorem monthDay_dayOfYear (y yd : Int) (h : 0 ≤ yd) :
    dayOfYear (isLeap y) (monthDay y yd).1 (monthDay y yd).2 = yd := by
  have t1 : daysBefore 1 = 31 := by decide
  have t2 : daysBefore 2 = 59 := by decide
  unfold dayOfYear monthDay
  cases isLeap y
  · simp only [Bool.false_and, Bool.false_eq_true, if_false]
    split_ifs with c
    · rw [show yd / 31 + 2 - 1 = yd / 31 + 1 by omega]
      dsimp only
      omega
    · rw [show yd / 31 + 1 - 1 = yd / 31 by omega]
      dsimp only
      omega
  · simp only [Bool.true_and, beq_iff_eq, decide_eq_true_eq]
    by_cases h59 : yd = 31 + 29 - 1
    · rw [if_pos h59]
      simp only [t1, show (2 : Int) - 1 = 1 by decide]
      rw [if_neg (by decide)]
      omega
    · rw [if_neg h59]
      by_cases hgt : yd > 31 + 29 - 1
      · rw [if_pos hgt]
        by_cases c1 : yd - 1 ≥ daysBefore ((yd - 1) / 31 + 1)
        · rw [if_pos c1]
          dsimp only
          rw [if_pos (by omega), show (yd - 1) / 31 + 2 - 1 = (yd - 1) / 31 + 1 by omega]
          omega
        · rw [if_neg c1]
          dsimp only
          have hq : (yd - 1) / 31 ≠ 1 := by
            intro hq
            rw [hq, show (1 : Int) + 1 = 2 by decide, t2] at c1
            omega
          rw [if_pos (by omega), show (yd - 1) / 31 + 1 - 1 = (yd - 1) / 31 by omega]
          omega
      · rw [if_neg hgt]
        have hq : yd / 31 = 0 ∨ yd / 31 = 1 := by omega
        rcases hq with hq | hq
        · rw [hq]
          simp only [show (0 : Int) + 1 = 1 by decide, t1]
          rw [if_neg (by omega)]
          simp only [show (1 : Int) - 1 = 0 by decide]
          rw [if_neg (by decide)]
          simp only [show daysBefore 0 = 0 by decide]
          omega
        · rw [hq]
          simp only [show (1 : Int) + 1 = 2 by decide, t2, t1]
          rw [if_neg (by omega)]
          simp only [show (2 : Int) - 1 = 1 by decide, t1]
          rw [if_neg (by decide)]
          omega

/-- The year, the month and the day of the month determine the day number. -/
theorem days_eq_of_date (s t : Time)
    (hy : s.Year = t.Year) (hm : s.Month = t.Month) (hd : s.Day = t.Day) :
    s.days = t.days := by
  unfold Time.Year at hy
  unfold Time.Month at hm
  unfold Time.Day at hd
  obtain ⟨a1, a2, -⟩ := absYearDay_spec s.days
  obtain ⟨b1, b2, -⟩ := absYearDay_spec t.days
  have e1 := monthDay_dayOfYear (absYearDay s.days).1 (absYearDay s.days).2 a2
  have e2 := monthDay_dayOfYear (absYearDay t.days).1 (absYearDay t.days).2 b2
  rw [hm, hd, hy, e2] at e1
  rw [a1, b1, hy, e1]

theorem thursday_near (t : Time) : t.days - 3 ≤ t.thursday ∧ t.thursday ≤ t.days + 3 := by
  unfold Time.thursday Time.weekday
  dsimp only
  split_ifs <;> omega

/-- Within one calendar year and month, the ISO week number determines the ISO
week: two timestamps with the same year, month and ISO week number have the
same ISO year. -/
theorem isoWeek_eq_of_year_month_week (s t : Time)
    (hy : s.Year = t.Year) (hm : s.Month = t.Month) (hw : s.ISOWeek.2 = t.ISOWeek.2) :
    s.ISOWeek = t.ISOWeek := by
  refine Prod.ext ?_ hw
  unfold Time.Year at hy
  unfold Time.Month at hm
  unfold Time.ISOWeek at hw ⊢
  dsimp only at hw ⊢
  obtain ⟨n1, n2⟩ := thursday_near s
  obtain ⟨n3, n4⟩ := thursday_near t
  obtain ⟨a1, a2, a3⟩ := absYearDay_spec s.days
  obtain ⟨b1, b2, b3⟩ := absYearDay_spec t.days
  obtain ⟨c1, c2, c3⟩ := absYearDay_spec s.thursday
  obtain ⟨d1, d2, d3⟩ := absYearDay_spec t.thursday
  have ys := year_near s.days s.thursday n1 n2
  have yt := year_near t.days t.thursday n3 n4
  have ms := monthDay_january (absYearDay s.days).1 (absYearDay s.days).2 a2
  have mt := monthDay_january (absYearDay t.days).1 (absYearDay t.days).2 b2
  rw [← hm] at mt
  rw [← hy] at yt b1
  have l0 := yearStart_succ ((absYearDay s.days).1 - 1)
  have l1 := yearStart_succ (absYearDay s.days).1
  rw [show (absYearDay s.days).1 - 1 + 1 = (absYearDay s.days).1 by omega] at l0
  rcases ys with ys | ys | ys <;> rcases yt with yt | yt | yt <;>
    (rw [ys] at c1 ⊢
     rw [yt] at d1 ⊢) <;>
    (generalize (monthDay (absYearDay s.days).1 (absYearDay s.days).2).1 = m at *
     generalize (absYearDay s.thursday).2 = sw at *
     generalize (absYearDay t.thursday).2 = tw at *
     generalize (absYearDay s.days).2 = sd at *
     generalize (absYearDay t.days).2 = td at *
     generalize (absYearDay s.days).1 = y at *
     generalize yearStart (y - 1) = p0 at *
     generalize yearStart (y + 1) = p2 at *
     generalize yearStart y = p1 at *
     omega)

/-! ## Calendar days along a run -/

/-- No reset without a last deposit or on the day of the last deposit. -/
theorem resetWindow_same_day (a : Account) (t : Transaction)
    (h : a.LastDeposit = Transaction.zero ∨ a.LastDeposit.Time.days = t.Time.days) :
    a.resetWindow t = a := by
  unfold Account.resetWindow
  rcases h with h | h
  · simp [h]
  · have hy : a.LastDeposit.Time.Year = t.Time.Year := by unfold Time.Year; rw [h]
    have hm : a.LastDeposit.Time.Month = t.Time.Month := by unfold Time.Month; rw [h]
    have hd : a.LastDeposit.Time.Day = t.Time.Day := by unfold Time.Day; rw [h]
    have hw : a.LastDeposit.Time.ISOWeek = t.Time.ISOWeek := by
      unfold Time.ISOWeek Time.thursday Time.weekday; rw [h]
    simp [hy, hm, hd, hw]

/-- In chronological order and with one offset, day numbers do not decrease. -/
theorem days_le_of_chronological (s t : Transaction)
    (h1 : s.Time.After t.Time = false) (h2 : s.Time.offset = t.Time.offset) :
    s.Time.days ≤ t.Time.days := by
  have hle : s.Time.ext ≤ t.Time.ext := by
    unfold Time.After at h1
    simp only [Bool.or_eq_false_iff, decide_eq_false_iff_not, not_lt] at h1
    exact h1.1
  unfold Time.days Time.abs secondsPerDay
  rw [h2]
  omega

theorem filter_onDay_of_lt (hist : List Transaction) (d : Int)
    (h : ∀ x ∈ hist, x.Time.days < d) : hist.filter (Transaction.onDay d) = [] := by
  rw [List.filter_eq_nil_iff]
  intro x hx
  have := h x hx
  simp only [Transaction.onDay, decide_eq_true_eq]
  omega

/-- The window reset keeps the invariant, at the day of the transaction. -/
theorem DayInv.resetWindow {dl : ℚ} {cl : Int} {a : Account} {hist : List Transaction}
    {cur : Int} (inv : DayInv dl cl a hist cur) (t : Transaction) (ht : cur ≤ t.Time.days) :
    DayInv dl cl (a.resetWindow t) hist t.Time.days := by
  obtain ⟨f1, f2, f3, f4, f5, f6⟩ := resetWindow_frame a t
  have hdl : 0 ≤ dl := le_trans inv.nonnegD inv.ceilD
  have hcl : 0 ≤ cl := le_trans inv.nonnegC inv.ceilC
  have hist' : ∀ x ∈ hist, x.Time.days ≤ t.Time.days :=
    fun x hx => le_trans (inv.histLe x hx) ht
  have last' : (a.resetWindow t).LastDeposit ≠ Transaction.zero →
      (a.resetWindow t).LastDeposit.Time.days ≤ t.Time.days
        ∧ ∀ x ∈ hist, x.Time.days ≤ (a.resetWindow t).LastDeposit.Time.days := by
    rw [f2]
    intro h
    exact ⟨le_trans (inv.lastLe h).1 ht, (inv.lastLe h).2⟩
  by_cases hs : a.LastDeposit = Transaction.zero ∨ a.LastDeposit.Time.days = t.Time.days
  · have e := resetWindow_same_day a t hs
    refine ⟨by rw [f4]; exact inv.limD, by rw [f6]; exact inv.limC, ?_, ?_, ?_, ?_, ?_,
      inv.past, hist', last'⟩
    · rw [e]; exact inv.nonnegD
    · rw [e]; exact inv.nonnegC
    · rw [e]; exact inv.ceilD
    · rw [e]; exact inv.ceilC
    · rw [e]; exact fun d hd => inv.current d (le_trans ht hd)
  · have hne : a.LastDeposit ≠ Transaction.zero := fun h => hs (Or.inl h)
    have hlt : ∀ x ∈ hist, x.Time.days < t.Time.days := by
      intro x hx
      have h1 := (inv.lastLe hne).2 x hx
      have h2 := (inv.lastLe hne).1
      have h3 : a.LastDeposit.Time.days ≠ t.Time.days := fun h => hs (Or.inr h)
      omega
    have cur0 : ∀ d, t.Time.days ≤ d →
        amountSum (hist.filter (Transaction.onDay d)) ≤ 0
          ∧ ((hist.filter (Transaction.onDay d)).length : Int) ≤ 0 := by
      intro d hd
      rw [filter_onDay_of_lt hist d (fun x hx => lt_of_lt_of_le (hlt x hx) hd)]
      simp [amountSum]
    refine ⟨by rw [f4]; exact inv.limD, by rw [f6]; exact inv.limC, ?_, ?_, ?_, ?_, ?_,
      inv.past, hist', last'⟩
    · rcases resetWindow_cases a t with e | e | e
      all_goals rw [e]
      exact inv.nonnegD
    · rcases resetWindow_cases a t with e | e | e
      all_goals rw [e]
      exact inv.nonnegC
    · rcases resetWindow_cases a t with e | e | e
      all_goals rw [e]
      all_goals first | exact inv.ceilD | exact hdl
    · rcases resetWindow_cases a t with e | e | e
      all_goals rw [e]
      all_goals first | exact inv.ceilC | exact hcl
    · intro d hd
      rcases resetWindow_cases a t with e | e | e <;> rw [e]
      · exact inv.current d (le_trans ht hd)
      · exact cur0 d hd
      · exact cur0 d hd

theorem evaluate_true_conds (a : Account) (t : Transaction)
    (h : (a.evaluate t).2 = true) :
    a.WeeklyDepositVelocity + t.Amount ≤ a.WeeklyDepositLimit
      ∧ a.DailyDepositVelocity + t.Amount ≤ a.DailyDepositLimit
      ∧ a.DailyDepositCount + 1 ≤ a.DailyDepositCountLimit := by
  unfold Account.evaluate at h
  split_ifs at h with c1 c2 c3
  exact ⟨not_lt.mp c1, not_lt.mp c2, not_lt.mp c3⟩

theorem amountSum_append (l1 l2 : List Transaction) :
    amountSum (l1 ++ l2) = amountSum l1 + amountSum l2 := by
  simp [amountSum]

/-- The sum and the number of the transactions of `[t]` dated on day `d`. -/
theorem filter_single (t : Transaction) (d : Int) :
    (t.Time.days = d ∧ amountSum ([t].filter (Transaction.onDay d)) = t.Amount
        ∧ ([t].filter (Transaction.onDay d)).length = 1)
      ∨ (t.Time.days ≠ d ∧ amountSum ([t].filter (Transaction.onDay d)) = 0
        ∧ ([t].filter (Transaction.onDay d)).length = 0) := by
  by_cases h : t.Time.days = d
  · left; simp [Transaction.onDay, h, amountSum]
  · right; simp [Transaction.onDay, h, amountSum]

/-- The checks and the commit keep the invariant: the accepted transaction
joins the history. -/
theorem DayInv.evaluate {dl : ℚ} {cl : Int} {a : Account} {hist : List Transaction}
    (t : Transaction) (inv : DayInv dl cl a hist t.Time.days) (hamt : 0 ≤ t.Amount) :
    DayInv dl cl (a.evaluate t).1
      (if (a.evaluate t).2 then hist ++ [t] else hist) t.Time.days := by
  cases hb : (a.evaluate t).2 with
  | false =>
    rw [evaluate_of_false a t hb]
    simpa using inv
  | true =>
    obtain ⟨-, c2, c3⟩ := evaluate_true_conds a t hb
    rw [inv.limD] at c2
    rw [inv.limC] at c3
    rw [evaluate_of_true a t hb]
    simp only [if_true]
    have hcur : ∀ d, t.Time.days ≤ d →
        amountSum ((hist ++ [t]).filter (Transaction.onDay d))
            ≤ a.DailyDepositVelocity + t.Amount
          ∧ (((hist ++ [t]).filter (Transaction.onDay d)).length : Int)
            ≤ a.DailyDepositCount + 1 := by
      intro d hd
      obtain ⟨h1, h2⟩ := inv.current d hd
      rw [List.filter_append, amountSum_append, List.length_append]
      rcases filter_single t d with ⟨-, e1, e2⟩ | ⟨-, e1, e2⟩ <;> rw [e1, e2] <;>
        constructor
      · linarith
      · push_cast; omega
      · linarith
      · push_cast; omega
    refine ⟨inv.limD, inv.limC, ?_, ?_, c2, c3, hcur, ?_, ?_, ?_⟩
    · exact add_nonneg inv.nonnegD hamt
    · have := inv.nonnegC
      show 0 ≤ a.DailyDepositCount + 1
      omega
    · intro d
      by_cases hd : t.Time.days ≤ d
      · obtain ⟨h1, h2⟩ := hcur d hd
        exact ⟨le_trans h1 c2, le_trans h2 c3⟩
      · obtain ⟨h1, h2⟩ := inv.past d
        rw [List.filter_append, amountSum_append, List.length_append]
        rcases filter_single t d with ⟨e0, -, -⟩ | ⟨-, e1, e2⟩
        · omega
        · rw [e1, e2]
          exact ⟨by linarith, by push_cast; omega⟩
    · intro x hx
      rcases List.mem_append.mp hx with hx | hx
      · exact inv.histLe x hx
      · rw [List.mem_singleton.mp hx]
    · intro _
      refine ⟨le_refl _, ?_⟩
      intro x hx
      rcases List.mem_append.mp hx with hx | hx
      · exact inv.histLe x hx
      · rw [List.mem_singleton.mp hx]

theorem accepted_cons (a : Account) (t : Transaction) (ts : List Transaction) :
    accepted a (t :: ts)
      = (if (a.Deposit t).2 then [t] else []) ++ accepted (a.Deposit t).1 ts := by
  simp only [accepted]
  split_ifs <;> rfl

/-- Along a run whose day numbers do not decrease, every day keeps its caps. -/
theorem dayInv_run (dl : ℚ) (cl : Int) (ts : List Transaction) :
    ∀ (a : Account) (hist : List Transaction) (cur : Int),
      DayInv dl cl a hist cur →
      (∀ t ∈ ts, cur ≤ t.Time.days) →
      ts.Pairwise (fun s t => s.Time.days ≤ t.Time.days) →
      (∀ t ∈ ts, 0 ≤ t.Amount) →
      ∀ d, amountSum ((hist ++ accepted a ts).filter (Transaction.onDay d)) ≤ dl
        ∧ (((hist ++ accepted a ts).filter (Transaction.onDay d)).length : Int) ≤ cl := by
  induction ts with
  | nil =>
    intro a hist cur inv _ _ _ d
    simpa [accepted] using inv.past d
  | cons t ts ih =>
    intro a hist cur inv hcur hsorted hamt d
    have h1 := inv.resetWindow t (hcur t (List.mem_cons_self t ts))
    have h2 := DayInv.evaluate t h1 (hamt t (List.mem_cons_self t ts))
    have hp := List.pairwise_cons.mp hsorted
    have h3 := ih (a.Deposit t).1 (if (a.Deposit t).2 then hist ++ [t] else hist)
      t.Time.days h2 (fun x hx => hp.1 x hx) hp.2
      (fun x hx => hamt x (List.mem_cons_of_mem t hx)) d
    rw [accepted_cons]
    split_ifs at h3 ⊢ with hb
    · simpa using h3
    · simpa using h3

/-- A newly created account satisfies the invariant, with no history. -/
theorem DayInv.newAccount (customerID : String) (dl wl : ℚ) (cl : Int)
    (hdl : 0 ≤ dl) (hcl : 0 ≤ cl) (cur : Int) :
    DayInv dl cl (newAccount customerID dl wl cl) [] cur := by
  refine ⟨rfl, rfl, le_refl _, le_refl _, hdl, hcl, ?_, ?_, ?_, ?_⟩
  · intro d _; simp [amountSum, DepositLimits.newAccount]
  · intro d; simp [amountSum, hdl, hcl]
  · intro x hx; cases hx
  · intro h; exact absurd rfl h

/-- The daily cap for the transactions dated on one day number. -/
theorem daily_cap_by_day_number (customerID : String) (dl wl : ℚ) (cl : Int)
    (ts : List Transaction) (hdl : 0 ≤ dl) (hcl : 0 ≤ cl)
    (hchrono : chronological ts) (hzone : sameOffset ts)
    (hamt : ∀ t ∈ ts, 0 ≤ t.Amount) (d : Int) :
    (((accepted (newAccount customerID dl wl cl) ts).filter
          (Transaction.onDay d)).length : Int) ≤ cl
      ∧ amountSum ((accepted (newAccount customerID dl wl cl) ts).filter
          (Transaction.onDay d)) ≤ dl := by
  have hdays : ts.Pairwise (fun s t => s.Time.days ≤ t.Time.days) :=
    (List.Pairwise.and hchrono hzone).imp
      (fun {s t} h => days_le_of_chronological s t h.1 h.2)
  cases ts with
  | nil => simp [accepted, amountSum, hdl, hcl]
  | cons t ts =>
    have hcur : ∀ x ∈ t :: ts, t.Time.days ≤ x.Time.days := by
      intro x hx
      rcases List.mem_cons.mp hx with hx | hx
      · rw [hx]
      · exact (List.pairwise_cons.mp hdays).1 x hx
    have h := dayInv_run dl cl (t :: ts) _ [] t.Time.days
      (DayInv.newAccount customerID dl wl cl hdl hcl t.Time.days) hcur hdays hamt d
    rw [List.nil_append] at h
    exact ⟨h.2, h.1⟩

/-- The transactions of a list dated on one calendar day are those dated on
one day number, if there are any. -/
theorem filter_onDate (l : List Transaction) (year month day : Int) :
    l.filter (Transaction.onDate year month day) = []
      ∨ ∃ d, l.filter (Transaction.onDate year month day)
              = l.filter (Transaction.onDay d) := by
  by_cases h : ∃ x ∈ l, Transaction.onDate year month day x = true
  · obtain ⟨x, -, hx⟩ := h
    right
    refine ⟨x.Time.days, List.filter_congr ?_⟩
    intro t _
    simp only [Transaction.onDate, Bool.and_eq_true, beq_iff_eq] at hx
    obtain ⟨⟨x1, x2⟩, x3⟩ := hx
    by_cases ht : t.Time.days = x.Time.days
    · have e1 : t.Time.Year = year := by rw [← x1]; unfold Time.Year; rw [ht]
      have e2 : t.Time.Month = month := by rw [← x2]; unfold Time.Month; rw [ht]
      have e3 : t.Time.Day = day := by rw [← x3]; unfold Time.Day; rw [ht]
      simp [Transaction.onDate, Transaction.onDay, e1, e2, e3, ht]
    · have hn : ¬ (t.Time.Year = year ∧ t.Time.Month = month ∧ t.Time.Day = day) := by
        rintro ⟨e1, e2, e3⟩
        exact ht (days_eq_of_date _ _ (e1.trans x1.symm) (e2.trans x2.symm)
          (e3.trans x3.symm))
      have hf : Transaction.onDate year month day t = false := by
        rw [Bool.eq_false_iff]
        intro hc
        simp only [Transaction.onDate, Bool.and_eq_true, beq_iff_eq] at hc
        exact hn ⟨hc.1.1, hc.1.2, hc.2⟩
      simp [hf, Transaction.onDay, ht]
  · left
    rw [List.filter_eq_nil_iff]
    intro x hx hc
    exact h ⟨x, hx, hc⟩

/-! ## `float64` comparisons -/

theorem round64_ne_nan (q : ℚ) : round64 q ≠ F64.nan := by
  unfold round64
  dsimp only
  split_ifs
  all_goals exact fun h => F64.noConfusion h

/-- Without NaN, `<=` is the negation of `>`. -/
theorem F64.le_iff_not_gt (x y : F64) (hx : x ≠ F64.nan) (hy : y ≠ F64.nan) :
    F64.le x y = true ↔ F64.gt x y = false := by
  cases x with
  | nan => exact absurd rfl hx
  | posInf => cases y <;> simp_all [F64.le, F64.gt]
  | negInf => cases y <;> simp_all [F64.le, F64.gt]
  | fin a =>
    cases y with
    | nan => exact absurd rfl hy
    | posInf => simp [F64.le, F64.gt]
    | negInf => simp [F64.le, F64.gt]
    | fin b => simp [F64.le, F64.gt]

theorem F64.le_self (x : F64) (hx : x ≠ F64.nan) : F64.le x x = true := by
  cases x with
  | nan => exact absurd rfl hx
  | posInf => rfl
  | negInf => rfl
  | fin a => simp [F64.le]

theorem F64.ne_nan_of_le (x y : F64) (h : F64.le x y = true) :
    x ≠ F64.nan ∧ y ≠ F64.nan := by
  cases x <;> cases y <;> simp_all [F64.le]

/-- Adding a finite amount to a value that is not NaN does not give NaN. -/
theorem F64.add_fin_ne_nan (x : F64) (q : ℚ) (hx : x ≠ F64.nan) :
    x.add (F64.fin q) ≠ F64.nan := by
  cases x with
  | nan => exact absurd rfl hx
  | posInf => exact fun h => F64.noConfusion h
  | negInf => exact fun h => F64.noConfusion h
  | fin a => exact round64_ne_nan (a + q)

/-- The window reset on `float64` accounts returns the account itself, the
account with the daily counters zeroed, or the account with all three
counters zeroed. -/
theorem resetWindow_cases_binary64 (a : Binary64.Account) (t : Binary64.Transaction) :
    a.resetWindow t = a
      ∨ a.resetWindow t
          = { a with DailyDepositVelocity := F64.fin 0, DailyDepositCount := 0 }
      ∨ a.resetWindow t
          = { a with WeeklyDepositVelocity := F64.fin 0, DailyDepositVelocity := F64.fin 0,
                     DailyDepositCount := 0 } := by
  unfold Binary64.Account.resetWindow
  dsimp only
  split_ifs
  · exact Or.inr (Or.inr rfl)
  · exact Or.inr (Or.inl rfl)
  · exact Or.inl rfl
  · exact Or.inl rfl

/-- With a finite amount the ceilings are kept on `float64` accounts: if the
limits are non-negative and the counters within them before `Deposit`, the
counters are within the limits after it. -/
theorem ceilings_kept_finite_amount (a : Binary64.Account) (t : Binary64.Transaction)
    (q : ℚ) (hq : t.Amount = F64.fin q)
    (hDL : F64.le (F64.fin 0) a.DailyDepositLimit = true)
    (hWL : F64.le (F64.fin 0) a.WeeklyDepositLimit = true)
    (hCL : 0 ≤ a.DailyDepositCountLimit)
    (hD : F64.le a.DailyDepositVelocity a.DailyDepositLimit = true)
    (hW : F64.le a.WeeklyDepositVelocity a.WeeklyDepositLimit = true)
    (hC : a.DailyDepositCount ≤ a.DailyDepositCountLimit) :
    F64.le (a.Deposit t).1.DailyDepositVelocity (a.Deposit t).1.DailyDepositLimit = true
      ∧ F64.le (a.Deposit t).1.WeeklyDepositVelocity (a.Deposit t).1.WeeklyDepositLimit = true
      ∧ (a.Deposit t).1.DailyDepositCount ≤ (a.Deposit t).1.DailyDepositCountLimit := by
  have hr : F64.le (a.resetWindow t).DailyDepositVelocity (a.resetWindow t).DailyDepositLimit
        = true
      ∧ F64.le (a.resetWindow t).WeeklyDepositVelocity (a.resetWindow t).WeeklyDepositLimit
        = true
      ∧ (a.resetWindow t).DailyDepositCount ≤ (a.resetWindow t).DailyDepositCountLimit := by
    rcases resetWindow_cases_binary64 a t with e | e | e
    · rw [e]; exact ⟨hD, hW, hC⟩
    · rw [e]; exact ⟨hDL, hW, hCL⟩
    · rw [e]; exact ⟨hDL, hWL, hCL⟩
  obtain ⟨r1, r2, r3⟩ := hr
  unfold Binary64.Account.Deposit
  generalize a.resetWindow t = b at r1 r2 r3 ⊢
  unfold Binary64.Account.evaluate
  split_ifs with c1 c2 c3
  · exact ⟨r1, r2, r3⟩
  · exact ⟨r1, r2, r3⟩
  · exact ⟨r1, r2, r3⟩
  · rw [hq] at c1 c2 ⊢
    refine ⟨?_, ?_, by show b.DailyDepositCount + 1 ≤ b.DailyDepositCountLimit; omega⟩
    · exact (F64.le_iff_not_gt _ _
        (F64.add_fin_ne_nan _ q (F64.ne_nan_of_le _ _ r1).1) (F64.ne_nan_of_le _ _ r1).2).mpr
        (Bool.eq_false_iff.mpr c2)
    · exact (F64.le_iff_not_gt _ _
        (F64.add_fin_ne_nan _ q (F64.ne_nan_of_le _ _ r2).1) (F64.ne_nan_of_le _ _ r2).2).mpr
        (Bool.eq_false_iff.mpr c1)

/-! ## Claims -/

/-- C1 fails on the code: a new account with the limits 5000, 20000 and 3 has
non-negative limits and its counters within them; `Deposit` accepts the NaN
amount of `nanFeed`, because every `>` on NaN is false, and leaves both
velocities NaN, which are not `<=` their limits; the deposits of 6000 and of
100000 that follow on the same day are then accepted too. -/
theorem nan_amount_breaks_ceilings :
    F64.le (F64.fin 0) (Binary64.newAccount "c" (F64.fin 5000) (F64.fin 20000) 3).DailyDepositLimit
        = true
      ∧ F64.le (F64.fin 0)
          (Binary64.newAccount "c" (F64.fin 5000) (F64.fin 20000) 3).WeeklyDepositLimit = true
      ∧ F64.le (Binary64.newAccount "c" (F64.fin 5000) (F64.fin 20000) 3).DailyDepositVelocity
          (Binary64.newAccount "c" (F64.fin 5000) (F64.fin 20000) 3).DailyDepositLimit = true
      ∧ F64.le (Binary64.newAccount "c" (F64.fin 5000) (F64.fin 20000) 3).WeeklyDepositVelocity
          (Binary64.newAccount "c" (F64.fin 5000) (F64.fin 20000) 3).WeeklyDepositLimit = true
      ∧ (Binary64.depositAll (Binary64.newAccount "c" (F64.fin 5000) (F64.fin 20000) 3)
          Binary64.nanFeed).2 = [true, true, true]
      ∧ (Binary64.depositAll (Binary64.newAccount "c" (F64.fin 5000) (F64.fin 20000) 3)
          (Binary64.nanFeed.take 1)).1.DailyDepositVelocity = F64.nan
      ∧ (Binary64.depositAll (Binary64.newAccount "c" (F64.fin 5000) (F64.fin 20000) 3)
          (Binary64.nanFeed.take 1)).1.WeeklyDepositVelocity = F64.nan
      ∧ F64.le
          (Binary64.depositAll (Binary64.newAccount "c" (F64.fin 5000) (F64.fin 20000) 3)
            (Binary64.nanFeed.take 1)).1.DailyDepositVelocity
          (Binary64.depositAll (Binary64.newAccount "c" (F64.fin 5000) (F64.fin 20000) 3)
            (Binary64.nanFeed.take 1)).1.DailyDepositLimit = false
      ∧ F64.le
          (Binary64.depositAll (Binary64.newAccount "c" (F64.fin 5000) (F64.fin 20000) 3)
            (Binary64.nanFeed.take 1)).1.WeeklyDepositVelocity
          (Binary64.depositAll (Binary64.newAccount "c" (F64.fin 5000) (F64.fin 20000) 3)
            (Binary64.nanFeed.take 1)).1.WeeklyDepositLimit = false := by
  decide!

/-- C2 as stated fails, in two ways. `Deposit` returns true for the NaN amount
of `nanFeed` on a new account although the weekly velocity plus the amount is
not `<=` the weekly limit. And of the deposits of `decimalFeed`, 4605.64, 5.18
and 389.18, which add up to the daily limit of 5000 exactly, `Deposit` rejects
the third: the `float64` sum of the three amounts is above 5000. -/
theorem deposit_accepts_iff_counterexample :
    ((Binary64.newAccount "c" (F64.fin 5000) (F64.fin 20000) 3).Deposit
        (Binary64.tx "1" F64.nan (mkTime 738913 12 0 none))).2 = true
      ∧ F64.le
          ((((Binary64.newAccount "c" (F64.fin 5000) (F64.fin 20000) 3).resetWindow
              (Binary64.tx "1" F64.nan (mkTime 738913 12 0 none))).WeeklyDepositVelocity).add
            (Binary64.tx "1" F64.nan (mkTime 738913 12 0 none)).Amount)
          ((Binary64.newAccount "c" (F64.fin 5000) (F64.fin 20000) 3).resetWindow
              (Binary64.tx "1" F64.nan (mkTime 738913 12 0 none))).WeeklyDepositLimit = false
      ∧ (460564 / 100 + 518 / 100 + 38918 / 100 : ℚ) = 5000
      ∧ (Binary64.depositAll (Binary64.newAccount "c" (F64.fin 5000) (F64.fin 20000) 3)
          Binary64.decimalFeed).2 = [true, true, false]
      ∧ ((Binary64.depositAll (Binary64.newAccount "c" (F64.fin 5000) (F64.fin 20000) 3)
            (Binary64.decimalFeed.take 2)).1.DailyDepositVelocity.add
          (round64 (38918 / 100))).gt (F64.fin 5000) = true := by
  decide!

/-- C2, amended: accept/reject decision. For every account and transaction for
which, on the counters as the window reset leaves them, the `float64` sums of
the weekly and of the daily velocity with the amount are not NaN and the
weekly and the daily limit are not NaN, `Deposit` returns true exactly when
the weekly sum is `<=` the weekly limit, the daily sum is `<=` the daily limit
and the daily count plus one is at most the daily count limit; so a deposit
whose `float64` sums are exactly the limits is accepted. -/
theorem deposit_accepts_iff_not_nan (a : Binary64.Account) (t : Binary64.Transaction)
    (hw : (a.resetWindow t).WeeklyDepositVelocity.add t.Amount ≠ F64.nan)
    (hwl : (a.resetWindow t).WeeklyDepositLimit ≠ F64.nan)
    (hd : (a.resetWindow t).DailyDepositVelocity.add t.Amount ≠ F64.nan)
    (hdl : (a.resetWindow t).DailyDepositLimit ≠ F64.nan) :
    ((a.Deposit t).2 = true ↔
        F64.le ((a.resetWindow t).WeeklyDepositVelocity.add t.Amount)
            (a.resetWindow t).WeeklyDepositLimit = true
          ∧ F64.le ((a.resetWindow t).DailyDepositVelocity.add t.Amount)
            (a.resetWindow t).DailyDepositLimit = true
          ∧ (a.resetWindow t).DailyDepositCount + 1
            ≤ (a.resetWindow t).DailyDepositCountLimit)
      ∧ ((a.resetWindow t).WeeklyDepositVelocity.add t.Amount
            = (a.resetWindow t).WeeklyDepositLimit →
          (a.resetWindow t).DailyDepositVelocity.add t.Amount
            = (a.resetWindow t).DailyDepositLimit →
          (a.resetWindow t).DailyDepositCount + 1
            = (a.resetWindow t).DailyDepositCountLimit →
          (a.Deposit t).2 = true) := by
  have key : (a.Deposit t).2 = true ↔
        F64.le ((a.resetWindow t).WeeklyDepositVelocity.add t.Amount)
            (a.resetWindow t).WeeklyDepositLimit = true
          ∧ F64.le ((a.resetWindow t).DailyDepositVelocity.add t.Amount)
            (a.resetWindow t).DailyDepositLimit = true
          ∧ (a.resetWindow t).DailyDepositCount + 1
            ≤ (a.resetWindow t).DailyDepositCountLimit := by
    rw [F64.le_iff_not_gt _ _ hw hwl, F64.le_iff_not_gt _ _ hd hdl]
    unfold Binary64.Account.Deposit Binary64.Account.evaluate
    split_ifs with c1 c2 c3
    · simp only [Bool.false_eq_true, false_iff, not_and]
      intro h
      rw [h] at c1
      exact absurd c1 (by decide)
    · simp only [Bool.false_eq_true, false_iff, not_and]
      intro _ h
      rw [h] at c2
      exact absurd c2 (by decide)
    · simp only [Bool.false_eq_true, false_iff, not_and]
      intro _ _ h
      omega
    · simp only [true_iff]
      exact ⟨Bool.eq_false_iff.mpr c1, Bool.eq_false_iff.mpr c2, by omega⟩
  refine ⟨key, fun h1 h2 h3 => key.mpr ⟨?_, ?_, h3.le⟩⟩
  · rw [h1]; exact F64.le_self _ hwl
  · rw [h2]; exact F64.le_self _ hdl

theorem deposit_accepts_iff_not_nan_witness :
    ((Binary64.newAccount "c" (F64.fin 5000) (F64.fin 20000) 3).resetWindow
          (Binary64.tx "1" (F64.fin 5000) (mkTime 738913 12 0 none))).DailyDepositVelocity.add
        (Binary64.tx "1" (F64.fin 5000) (mkTime 738913 12 0 none)).Amount ≠ F64.nan
      ∧ (((Binary64.newAccount "c" (F64.fin 5000) (F64.fin 20000) 3).Deposit
            (Binary64.tx "1" (F64.fin 5000) (mkTime 738913 12 0 none))).2 = true ↔
          F64.le
              (((Binary64.newAccount "c" (F64.fin 5000) (F64.fin 20000) 3).resetWindow
                  (Binary64.tx "1" (F64.fin 5000)
                    (mkTime 738913 12 0 none))).WeeklyDepositVelocity.add
                (Binary64.tx "1" (F64.fin 5000) (mkTime 738913 12 0 none)).Amount)
              ((Binary64.newAccount "c" (F64.fin 5000) (F64.fin 20000) 3).resetWindow
                  (Binary64.tx "1" (F64.fin 5000)
                    (mkTime 738913 12 0 none))).WeeklyDepositLimit = true
            ∧ F64.le
              (((Binary64.newAccount "c" (F64.fin 5000) (F64.fin 20000) 3).resetWindow
                  (Binary64.tx "1" (F64.fin 5000)
                    (mkTime 738913 12 0 none))).DailyDepositVelocity.add
                (Binary64.tx "1" (F64.fin 5000) (mkTime 738913 12 0 none)).Amount)
              ((Binary64.newAccount "c" (F64.fin 5000) (F64.fin 20000) 3).resetWindow
                  (Binary64.tx "1" (F64.fin 5000)
                    (mkTime 738913 12 0 none))).DailyDepositLimit = true
            ∧ ((Binary64.newAccount "c" (F64.fin 5000) (F64.fin 20000) 3).resetWindow
                  (Binary64.tx "1" (F64.fin 5000) (mkTime 738913 12 0 none))).DailyDepositCount + 1
              ≤ ((Binary64.newAccount "c" (F64.fin 5000) (F64.fin 20000) 3).resetWindow
                  (Binary64.tx "1" (F64.fin 5000)
                    (mkTime 738913 12 0 none))).DailyDepositCountLimit) :=
  ⟨by decide!,
   (deposit_accepts_iff_not_nan (Binary64.newAccount "c" (F64.fin 5000) (F64.fin 20000) 3)
      (Binary64.tx "1" (F64.fin 5000) (mkTime 738913 12 0 none))
      (by decide!) (by decide!) (by decide!) (by decide!)).1⟩

/-- C3, no-op on rejection. When `Deposit` returns false, the balance, the
last deposit, the customer id and the three limits are those before the call,
the three counters are those the window reset left, and each of these is
either the counter before the call or zero. -/
theorem deposit_rejected_noop (a : Account) (t : Transaction)
    (h : (a.Deposit t).2 = false) :
    (a.Deposit t).1.Balance = a.Balance
      ∧ (a.Deposit t).1.LastDeposit = a.LastDeposit
      ∧ (a.Deposit t).1.CustomerID = a.CustomerID
      ∧ (a.Deposit t).1.DailyDepositLimit = a.DailyDepositLimit
      ∧ (a.Deposit t).1.WeeklyDepositLimit = a.WeeklyDepositLimit
      ∧ (a.Deposit t).1.DailyDepositCountLimit = a.DailyDepositCountLimit
      ∧ (a.Deposit t).1.DailyDepositVelocity = (a.resetWindow t).DailyDepositVelocity
      ∧ (a.Deposit t).1.WeeklyDepositVelocity = (a.resetWindow t).WeeklyDepositVelocity
      ∧ (a.Deposit t).1.DailyDepositCount = (a.resetWindow t).DailyDepositCount
      ∧ ((a.Deposit t).1.DailyDepositVelocity = a.DailyDepositVelocity
          ∨ (a.Deposit t).1.DailyDepositVelocity = 0)
      ∧ ((a.Deposit t).1.WeeklyDepositVelocity = a.WeeklyDepositVelocity
          ∨ (a.Deposit t).1.WeeklyDepositVelocity = 0)
      ∧ ((a.Deposit t).1.DailyDepositCount = a.DailyDepositCount
          ∨ (a.Deposit t).1.DailyDepositCount = 0) := by
  have hr : (a.Deposit t).1 = a.resetWindow t := evaluate_of_false _ t h
  obtain ⟨f1, f2, f3, f4, f5, f6⟩ := resetWindow_frame a t
  rw [hr]
  refine ⟨f1, f2, f3, f4, f5, f6, rfl, rfl, rfl, ?_⟩
  rcases resetWindow_cases a t with e | e | e <;> rw [e] <;> simp

theorem deposit_rejected_noop_witness :
    ((newAccount "c" 5000 20000 3).Deposit (tx "1" 6000 (mkTime 738915 12 0 none))).2 = false
      ∧ ((newAccount "c" 5000 20000 3).Deposit
          (tx "1" 6000 (mkTime 738915 12 0 none))).1.Balance
        = (newAccount "c" 5000 20000 3).Balance :=
  ⟨by decide!,
   (deposit_rejected_noop (newAccount "c" 5000 20000 3)
      (tx "1" 6000 (mkTime 738915 12 0 none)) (by decide!)).1⟩

/-- C4, commit on acceptance. When `Deposit` returns true, the weekly and the
daily velocity are their values after the window reset plus the amount, the
balance is its previous value plus the amount, the daily count is its value
after the window reset plus one, the last deposit is the transaction, and the
customer id and the three limits are unchanged. -/
theorem deposit_accepted_commit (a : Account) (t : Transaction)
    (h : (a.Deposit t).2 = true) :
    (a.Deposit t).1.WeeklyDepositVelocity
        = (a.resetWindow t).WeeklyDepositVelocity + t.Amount
      ∧ (a.Deposit t).1.DailyDepositVelocity
        = (a.resetWindow t).DailyDepositVelocity + t.Amount
      ∧ (a.Deposit t).1.Balance = a.Balance + t.Amount
      ∧ (a.Deposit t).1.DailyDepositCount = (a.resetWindow t).DailyDepositCount + 1
      ∧ (a.Deposit t).1.LastDeposit = t
      ∧ (a.Deposit t).1.CustomerID = a.CustomerID
      ∧ (a.Deposit t).1.DailyDepositLimit = a.DailyDepositLimit
      ∧ (a.Deposit t).1.WeeklyDepositLimit = a.WeeklyDepositLimit
      ∧ (a.Deposit t).1.DailyDepositCountLimit = a.DailyDepositCountLimit := by
  obtain ⟨f1, f2, f3, f4, f5, f6⟩ := resetWindow_frame a t
  have hr := evaluate_of_true (a.resetWindow t) t h
  unfold Account.Deposit
  rw [hr]
  exact ⟨rfl, rfl, by rw [← f1], rfl, rfl, f3, f4, f5, f6⟩

theorem deposit_accepted_commit_witness :
    ((newAccount "c" 5000 20000 3).Deposit (tx "1" 3000 (mkTime 738915 12 0 none))).2 = true
      ∧ ((newAccount "c" 5000 20000 3).Deposit
          (tx "1" 3000 (mkTime 738915 12 0 none))).1.Balance
        = (newAccount "c" 5000 20000 3).Balance + (tx "1" 3000 (mkTime 738915 12 0 none)).Amount :=
  ⟨by decide!,
   (deposit_accepted_commit (newAccount "c" 5000 20000 3)
      (tx "1" 3000 (mkTime 738915 12 0 none)) (by decide!)).2.2.1⟩

/-- C5 as stated fails: `mixedOffsetFeed` is in chronological order and has
positive amounts, `Deposit` accepts all five deposits from a new account with
the limits 5000, 20000 and 3, and four of them, 8000 in all, are dated January
2, 2024: the fourth deposit, dated January 1 in its own zone, makes `Deposit`
reset the daily counters twice. -/
theorem daily_cap_counterexample :
    chronological mixedOffsetFeed
      ∧ (∀ t ∈ mixedOffsetFeed, 0 ≤ t.Amount)
      ∧ mixedOffsetFeed.map (fun t => (t.Time.Year, t.Time.Month, t.Time.Day))
          = [(2024, 1, 2), (2024, 1, 2), (2024, 1, 2), (2024, 1, 1), (2024, 1, 2)]
      ∧ (depositAll (newAccount "c" 5000 20000 3) mixedOffsetFeed).2
          = [true, true, true, true, true]
      ∧ ¬ ((((accepted (newAccount "c" 5000 20000 3) mixedOffsetFeed).filter
              (Transaction.onDate 2024 1 2)).length : Int)
            ≤ (newAccount "c" 5000 20000 3).DailyDepositCountLimit)
      ∧ ¬ (amountSum ((accepted (newAccount "c" 5000 20000 3) mixedOffsetFeed).filter
              (Transaction.onDate 2024 1 2))
            ≤ (newAccount "c" 5000 20000 3).DailyDepositLimit) := by
  decide!

/-- C5, amended: daily cap over a day. For every sequence of transactions with
non-negative amounts whose timestamps are in chronological order and have one
and the same offset from UTC, applied by `Deposit` to a newly created account
with non-negative limits, and for every calendar day (year, month and day of
the month), the number of accepted transactions dated on that day is at most
the daily count limit and the sum of their amounts is at most the daily
limit. -/
theorem daily_cap_one_offset (customerID : String) (dl wl : ℚ) (cl : Int)
    (ts : List Transaction) (hdl : 0 ≤ dl) (hcl : 0 ≤ cl)
    (hchrono : chronological ts) (hzone : sameOffset ts)
    (hamt : ∀ t ∈ ts, 0 ≤ t.Amount) (year month day : Int) :
    (((accepted (newAccount customerID dl wl cl) ts).filter
          (Transaction.onDate year month day)).length : Int) ≤ cl
      ∧ amountSum ((accepted (newAccount customerID dl wl cl) ts).filter
          (Transaction.onDate year month day)) ≤ dl := by
  rcases filter_onDate (accepted (newAccount customerID dl wl cl) ts) year month day
    with h | ⟨d, h⟩
  · rw [h]
    simp [amountSum, hdl, hcl]
  · rw [h]
    exact daily_cap_by_day_number customerID dl wl cl ts hdl hcl hchrono hzone hamt d

theorem daily_cap_one_offset_witness :
    chronological mondayTuesdayFeed
      ∧ sameOffset mondayTuesdayFeed
      ∧ (∀ t ∈ mondayTuesdayFeed, 0 ≤ t.Amount)
      ∧ (((accepted (newAccount "c" 5000 20000 3) mondayTuesdayFeed).filter
            (Transaction.onDate 2024 1 29)).length : Int) ≤ 3
      ∧ amountSum ((accepted (newAccount "c" 5000 20000 3) mondayTuesdayFeed).filter
            (Transaction.onDate 2024 1 29)) ≤ 5000 :=
  ⟨by decide!, by decide!, by decide!,
   daily_cap_one_offset "c" 5000 20000 3 mondayTuesdayFeed (by decide!) (by decide!)
     (by decide!) (by decide!) (by decide!) 2024 1 29⟩

/-- C6 fails on the code: the five deposits of `monthBoundaryFeed`, in
chronological order, all fall in ISO week 5 of 2024, `Deposit` accepts all of
them from a new account with the limits 5000, 20000 and 3, and their sum,
25000, exceeds the weekly limit: the deposit of February 1 makes `Deposit`
zero the weekly velocity because the month changed. -/
theorem weekly_cap_month_boundary :
    chronological monthBoundaryFeed
      ∧ (∀ t ∈ monthBoundaryFeed, 0 ≤ t.Amount)
      ∧ monthBoundaryFeed.map (fun t => t.Time.ISOWeek)
          = [(2024, 5), (2024, 5), (2024, 5), (2024, 5), (2024, 5)]
      ∧ monthBoundaryFeed.map (fun t => (t.Time.Year, t.Time.Month, t.Time.Day))
          = [(2024, 1, 29), (2024, 1, 30), (2024, 1, 31), (2024, 2, 1), (2024, 2, 2)]
      ∧ (depositAll (newAccount "c" 5000 20000 3) monthBoundaryFeed).2
          = [true, true, true, true, true]
      ∧ amountSum (accepted (newAccount "c" 5000 20000 3) monthBoundaryFeed) = 25000
      ∧ ¬ (amountSum (accepted (newAccount "c" 5000 20000 3) monthBoundaryFeed)
            ≤ (newAccount "c" 5000 20000 3).WeeklyDepositLimit) := by
  decide!

/-- C7, week, month and year rollover. For an account with a last deposit
(`LastDeposit` is not the zero `Transaction`) and a transaction whose calendar
year, calendar month or ISO week number differs from that of the last deposit,
or whose ISO week (ISO year and week number) differs from it, the window reset
of `Deposit` leaves the three counters at 0, so `Deposit` is the evaluation of
the transaction on the account with all-zero counters. -/
theorem rollover_resets_all (a : Account) (t : Transaction)
    (hlast : a.LastDeposit ≠ Transaction.zero)
    (h : a.LastDeposit.Time.Year ≠ t.Time.Year
          ∨ a.LastDeposit.Time.Month ≠ t.Time.Month
          ∨ a.LastDeposit.Time.ISOWeek.2 ≠ t.Time.ISOWeek.2
          ∨ a.LastDeposit.Time.ISOWeek ≠ t.Time.ISOWeek) :
    (a.resetWindow t).WeeklyDepositVelocity = 0
      ∧ (a.resetWindow t).DailyDepositVelocity = 0
      ∧ (a.resetWindow t).DailyDepositCount = 0
      ∧ a.Deposit t
          = ({ a with WeeklyDepositVelocity := 0, DailyDepositVelocity := 0,
                      DailyDepositCount := 0 } : Account).evaluate t := by
  have hc : a.LastDeposit.Time.Year ≠ t.Time.Year
      ∨ a.LastDeposit.Time.Month ≠ t.Time.Month
      ∨ a.LastDeposit.Time.ISOWeek.2 ≠ t.Time.ISOWeek.2 := by
    by_contra hn
    push_neg at hn
    obtain ⟨e1, e2, e3⟩ := hn
    have e4 := isoWeek_eq_of_year_month_week _ _ e1 e2 e3
    rcases h with h | h | h | h
    · exact h e1
    · exact h e2
    · exact h e3
    · exact h e4
  have hr : a.resetWindow t
      = { a with WeeklyDepositVelocity := 0, DailyDepositVelocity := 0,
                 DailyDepositCount := 0 } := by
    unfold Account.resetWindow
    dsimp only
    rw [if_pos hlast, if_pos hc]
  exact ⟨by rw [hr], by rw [hr], by rw [hr], by unfold Account.Deposit; rw [hr]⟩

theorem rollover_resets_all_witness :
    wednesdayAccount.LastDeposit ≠ Transaction.zero
      ∧ wednesdayAccount.LastDeposit.Time.ISOWeek
          ≠ (tx "2" 4000 (mkTime 738920 12 0 none)).Time.ISOWeek
      ∧ (wednesdayAccount.resetWindow
          (tx "2" 4000 (mkTime 738920 12 0 none))).WeeklyDepositVelocity = 0 :=
  ⟨by decide!, by decide!,
   (rollover_resets_all wednesdayAccount (tx "2" 4000 (mkTime 738920 12 0 none))
      (by decide!) (Or.inr (Or.inr (Or.inr (by decide!))))).1⟩

/-- C8 fails on the code: `wednesdayAccount` has its last deposit on
Wednesday, January 31, 2024 and a weekly velocity of 3000; a transaction of
Thursday, February 1, 2024 is dated on another day of the same ISO week (week
5 of 2024), and the window reset of `Deposit` zeroes the weekly velocity
instead of carrying it over, so that a deposit of 5000 leaves it at 5000. -/
theorem new_day_same_week_month_boundary :
    wednesdayAccount.LastDeposit ≠ Transaction.zero
      ∧ (wednesdayAccount.LastDeposit.Time.Year, wednesdayAccount.LastDeposit.Time.Month,
          wednesdayAccount.LastDeposit.Time.Day) = (2024, 1, 31)
      ∧ ((tx "2" 5000 (mkTime 738916 12 0 none)).Time.Year,
          (tx "2" 5000 (mkTime 738916 12 0 none)).Time.Month,
          (tx "2" 5000 (mkTime 738916 12 0 none)).Time.Day) = (2024, 2, 1)
      ∧ wednesdayAccount.LastDeposit.Time.ISOWeek = (2024, 5)
      ∧ (tx "2" 5000 (mkTime 738916 12 0 none)).Time.ISOWeek = (2024, 5)
      ∧ wednesdayAccount.WeeklyDepositVelocity = 3000
      ∧ (wednesdayAccount.resetWindow
          (tx "2" 5000 (mkTime 738916 12 0 none))).WeeklyDepositVelocity = 0
      ∧ (wednesdayAccount.Deposit
          (tx "2" 5000 (mkTime 738916 12 0 none))).1.WeeklyDepositVelocity = 5000 := by
  decide!

/-- C9, daily-only reset. For an account with a last deposit (`LastDeposit` is
not the zero `Transaction`) and a transaction with the same calendar year, the
same calendar month and the same ISO week number as the last deposit but
another day of the month, the window reset of `Deposit` leaves the daily
velocity and the daily count at 0 and the weekly velocity at its previous
value, and changes nothing else. -/
theorem daily_only_reset (a : Account) (t : Transaction)
    (hlast : a.LastDeposit ≠ Transaction.zero)
    (hy : a.LastDeposit.Time.Year = t.Time.Year)
    (hm : a.LastDeposit.Time.Month = t.Time.Month)
    (hw : a.LastDeposit.Time.ISOWeek.2 = t.Time.ISOWeek.2)
    (hd : a.LastDeposit.Time.Day ≠ t.Time.Day) :
    (a.resetWindow t).DailyDepositVelocity = 0
      ∧ (a.resetWindow t).DailyDepositCount = 0
      ∧ (a.resetWindow t).WeeklyDepositVelocity = a.WeeklyDepositVelocity
      ∧ a.resetWindow t = { a with DailyDepositVelocity := 0, DailyDepositCount := 0 } := by
  have hc : ¬ (a.LastDeposit.Time.Year ≠ t.Time.Year
      ∨ a.LastDeposit.Time.Month ≠ t.Time.Month
      ∨ a.LastDeposit.Time.ISOWeek.2 ≠ t.Time.ISOWeek.2) := by
    rintro (h | h | h)
    · exact h hy
    · exact h hm
    · exact h hw
  have hr : a.resetWindow t
      = { a with DailyDepositVelocity := 0, DailyDepositCount := 0 } := by
    unfold Account.resetWindow
    dsimp only
    rw [if_pos hlast, if_neg hc, if_pos hd]
  exact ⟨by rw [hr], by rw [hr], by rw [hr], hr⟩

theorem daily_only_reset_witness :
    wednesdayAccount.LastDeposit ≠ Transaction.zero
      ∧ wednesdayAccount.LastDeposit.Time.Day
          ≠ (tx "2" 500 (mkTime 738914 12 0 none)).Time.Day
      ∧ (wednesdayAccount.resetWindow
          (tx "2" 500 (mkTime 738914 12 0 none))).WeeklyDepositVelocity
        = wednesdayAccount.WeeklyDepositVelocity :=
  ⟨by decide!, by decide!,
   (daily_only_reset wednesdayAccount (tx "2" 500 (mkTime 738914 12 0 none))
      (by decide!) (by decide!) (by decide!) (by decide!) (by decide!)).2.2.1⟩

/-- C10, no reset. For an account without last deposit (`LastDeposit` is the
zero `Transaction`), and for an account whose last deposit has the year, the
month, the ISO week number and the day of the month of the transaction, the
window reset of `Deposit` returns the account as it is: `Deposit` is the
evaluation of the transaction, the three ceiling checks and the commit, on the
counters as they were before the call. -/
theorem no_reset (a : Account) (t : Transaction)
    (h : a.LastDeposit = Transaction.zero
          ∨ (a.LastDeposit.Time.Year = t.Time.Year
              ∧ a.LastDeposit.Time.Month = t.Time.Month
              ∧ a.LastDeposit.Time.ISOWeek.2 = t.Time.ISOWeek.2
              ∧ a.LastDeposit.Time.Day = t.Time.Day)) :
    a.resetWindow t = a
      ∧ a.Deposit t = a.evaluate t := by
  have hr : a.resetWindow t = a := by
    unfold Account.resetWindow
    dsimp only
    rcases h with h | ⟨hy, hm, hw, hd⟩
    · rw [if_neg (not_not.mpr h)]
    · have hc : ¬ (a.LastDeposit.Time.Year ≠ t.Time.Year
          ∨ a.LastDeposit.Time.Month ≠ t.Time.Month
          ∨ a.LastDeposit.Time.ISOWeek.2 ≠ t.Time.ISOWeek.2) := by
        rintro (h | h | h)
        · exact h hy
        · exact h hm
        · exact h hw
      rw [if_neg hc, if_neg (not_not.mpr hd)]
      split_ifs <;> rfl
  exact ⟨hr, by unfold Account.Deposit; rw [hr]⟩

theorem no_reset_witness :
    (wednesdayAccount.LastDeposit.Time.Year = (tx "2" 2000 (mkTime 738915 18 0 none)).Time.Year
        ∧ wednesdayAccount.LastDeposit.Time.Month
            = (tx "2" 2000 (mkTime 738915 18 0 none)).Time.Month
        ∧ wednesdayAccount.LastDeposit.Time.ISOWeek.2
            = (tx "2" 2000 (mkTime 738915 18 0 none)).Time.ISOWeek.2
        ∧ wednesdayAccount.LastDeposit.Time.Day
            = (tx "2" 2000 (mkTime 738915 18 0 none)).Time.Day)
      ∧ wednesdayAccount.resetWindow (tx "2" 2000 (mkTime 738915 18 0 none))
          = wednesdayAccount :=
  ⟨by decide!,
   (no_reset wednesdayAccount (tx "2" 2000 (mkTime 738915 18 0 none))
      (Or.inr (by decide!))).1⟩

/-! ## Repeated calls and runs -/

/-- The window reset for the same transaction does nothing the second time. -/
theorem resetWindow_idem (a : Account) (t : Transaction) :
    (a.resetWindow t).resetWindow t = a.resetWindow t := by
  unfold Account.resetWindow
  dsimp only
  split_ifs
  all_goals rfl

/-- What one call does to the balance. -/
theorem Deposit_balance (a : Account) (t : Transaction) :
    (a.Deposit t).1.Balance = a.Balance + (if (a.Deposit t).2 then t.Amount else 0) := by
  obtain ⟨f1, -⟩ := resetWindow_frame a t
  cases hb : (a.Deposit t).2 with
  | false =>
    have e : (a.Deposit t).1 = a.resetWindow t := evaluate_of_false _ t hb
    rw [e, f1]
    simp
  | true =>
    have e := evaluate_of_true (a.resetWindow t) t hb
    unfold Account.Deposit
    rw [e]
    simp [f1]

theorem depositAll_balance (ts : List Transaction) :
    ∀ a : Account, (depositAll a ts).1.Balance = a.Balance + amountSum (accepted a ts) := by
  induction ts with
  | nil => intro a; simp [depositAll, accepted, amountSum]
  | cons t ts ih =>
    intro a
    have h := Deposit_balance a t
    rw [accepted_cons, amountSum_append]
    show (depositAll (a.Deposit t).1 ts).1.Balance = _
    rw [ih, h]
    cases (a.Deposit t).2
    all_goals simp [amountSum]
    ring

/-- The accepted transactions are those whose call returned true. -/
theorem accepted_eq_filter (ts : List Transaction) :
    ∀ a : Account,
      accepted a ts
        = ((ts.zip (depositAll a ts).2).filter (fun p => p.2)).map (fun p => p.1) := by
  induction ts with
  | nil => intro a; rfl
  | cons t ts ih =>
    intro a
    rw [accepted_cons, ih]
    show _ = ((List.zip (t :: ts) ((a.Deposit t).2 :: (depositAll (a.Deposit t).1 ts).2)).filter
      (fun p => p.2)).map (fun p => p.1)
    cases (a.Deposit t).2
    all_goals simp

/-- The invariant of the counters under non-negative amounts. -/
theorem Deposit_counters (a : Account) (t : Transaction) (hamt : 0 ≤ t.Amount)
    (h : 0 ≤ a.DailyDepositVelocity ∧ a.DailyDepositVelocity ≤ a.WeeklyDepositVelocity
          ∧ 0 ≤ a.DailyDepositCount) :
    0 ≤ (a.Deposit t).1.DailyDepositVelocity
      ∧ (a.Deposit t).1.DailyDepositVelocity ≤ (a.Deposit t).1.WeeklyDepositVelocity
      ∧ 0 ≤ (a.Deposit t).1.DailyDepositCount := by
  obtain ⟨h1, h2, h3⟩ := h
  have hr : 0 ≤ (a.resetWindow t).DailyDepositVelocity
      ∧ (a.resetWindow t).DailyDepositVelocity ≤ (a.resetWindow t).WeeklyDepositVelocity
      ∧ 0 ≤ (a.resetWindow t).DailyDepositCount := by
    rcases resetWindow_cases a t with e | e | e
    · rw [e]; exact ⟨h1, h2, h3⟩
    · rw [e]; exact ⟨le_refl _, le_trans h1 h2, le_refl _⟩
    · rw [e]; exact ⟨le_refl _, le_refl _, le_refl _⟩
  obtain ⟨r1, r2, r3⟩ := hr
  cases hb : (a.Deposit t).2 with
  | false =>
    have e : (a.Deposit t).1 = a.resetWindow t := evaluate_of_false _ t hb
    rw [e]
    exact ⟨r1, r2, r3⟩
  | true =>
    have e := evaluate_of_true (a.resetWindow t) t hb
    unfold Account.Deposit
    rw [e]
    refine ⟨add_nonneg r1 hamt, ?_, ?_⟩
    · show (a.resetWindow t).DailyDepositVelocity + t.Amount
        ≤ (a.resetWindow t).WeeklyDepositVelocity + t.Amount
      linarith
    · show 0 ≤ (a.resetWindow t).DailyDepositCount + 1
      omega

theorem depositAll_counters (ts : List Transaction) :
    ∀ a : Account, (∀ t ∈ ts, 0 ≤ t.Amount) →
      (0 ≤ a.DailyDepositVelocity ∧ a.DailyDepositVelocity ≤ a.WeeklyDepositVelocity
        ∧ 0 ≤ a.DailyDepositCount) →
      0 ≤ (depositAll a ts).1.DailyDepositVelocity
        ∧ (depositAll a ts).1.DailyDepositVelocity ≤ (depositAll a ts).1.WeeklyDepositVelocity
        ∧ 0 ≤ (depositAll a ts).1.DailyDepositCount := by
  induction ts with
  | nil => intro a _ h; exact h
  | cons t ts ih =>
    intro a hamt h
    exact ih _ (fun x hx => hamt x (List.mem_cons_of_mem t hx))
      (Deposit_counters a t (hamt t (List.mem_cons_self t ts)) h)

theorem newAccount_counters (customerID : String) (dl wl : ℚ) (cl : Int) :
    0 ≤ (newAccount customerID dl wl cl).DailyDepositVelocity
      ∧ (newAccount customerID dl wl cl).DailyDepositVelocity
          ≤ (newAccount customerID dl wl cl).WeeklyDepositVelocity
      ∧ 0 ≤ (newAccount customerID dl wl cl).DailyDepositCount :=
  ⟨le_refl _, le_refl _, le_refl _⟩

/-- With a negative amount the weekly velocity can fall below the daily one:
after `negativeFeed` on a new account they are -90 and 10. -/
theorem weekly_below_daily_negative :
    (depositAll (newAccount "c" 5000 20000 3) negativeFeed).2 = [true, true]
      ∧ (depositAll (newAccount "c" 5000 20000 3) negativeFeed).1.WeeklyDepositVelocity = -90
      ∧ (depositAll (newAccount "c" 5000 20000 3) negativeFeed).1.DailyDepositVelocity = 10 := by
  decide!

/-- A call of `Deposit` keeps the three limits and the customer id. -/
theorem Deposit_frame (a : Account) (t : Transaction) :
    (a.Deposit t).1.CustomerID = a.CustomerID
      ∧ (a.Deposit t).1.DailyDepositLimit = a.DailyDepositLimit
      ∧ (a.Deposit t).1.WeeklyDepositLimit = a.WeeklyDepositLimit
      ∧ (a.Deposit t).1.DailyDepositCountLimit = a.DailyDepositCountLimit := by
  obtain ⟨-, -, f3, f4, f5, f6⟩ := resetWindow_frame a t
  cases hb : (a.Deposit t).2 with
  | false =>
    have e : (a.Deposit t).1 = a.resetWindow t := evaluate_of_false _ t hb
    rw [e]
    exact ⟨f3, f4, f5, f6⟩
  | true =>
    have e := evaluate_of_true (a.resetWindow t) t hb
    unfold Account.Deposit
    rw [e]
    exact ⟨f3, f4, f5, f6⟩

theorem depositAll_frame (ts : List Transaction) :
    ∀ a : Account,
      (depositAll a ts).1.CustomerID = a.CustomerID
        ∧ (depositAll a ts).1.DailyDepositLimit = a.DailyDepositLimit
        ∧ (depositAll a ts).1.WeeklyDepositLimit = a.WeeklyDepositLimit
        ∧ (depositAll a ts).1.DailyDepositCountLimit = a.DailyDepositCountLimit := by
  induction ts with
  | nil => intro a; exact ⟨rfl, rfl, rfl, rfl⟩
  | cons t ts ih =>
    intro a
    obtain ⟨h1, h2, h3, h4⟩ := ih (a.Deposit t).1
    obtain ⟨g1, g2, g3, g4⟩ := Deposit_frame a t
    exact ⟨h1.trans g1, h2.trans g2, h3.trans g3, h4.trans g4⟩

/-- Along attempts that are all dated on day number `d`, the daily count is at
least the number of accepted deposits, and after the first accepted one the
last deposit is of day `d` (or is the zero `Transaction`). -/
theorem count_same_day (d : Int) (ts : List Transaction) :
    ∀ (a : Account) (k : Int),
      (∀ x ∈ ts, x.Time.days = d) →
      0 ≤ k → k ≤ a.DailyDepositCount →
      (0 < k → a.LastDeposit = Transaction.zero ∨ a.LastDeposit.Time.days = d) →
      k + ((accepted a ts).length : Int) ≤ (depositAll a ts).1.DailyDepositCount
        ∧ (0 < k + ((accepted a ts).length : Int) →
            (depositAll a ts).1.LastDeposit = Transaction.zero
              ∨ (depositAll a ts).1.LastDeposit.Time.days = d) := by
  induction ts with
  | nil =>
    intro a k _ _ hk hl
    simpa [accepted, depositAll] using ⟨hk, hl⟩
  | cons x ts ih =>
    intro a k hd hk0 hk hl
    have hx : x.Time.days = d := hd x (List.mem_cons_self x ts)
    have hts : ∀ y ∈ ts, y.Time.days = d := fun y hy => hd y (List.mem_cons_of_mem x hy)
    obtain ⟨-, f2, -⟩ := resetWindow_frame a x
    have hr : k ≤ (a.resetWindow x).DailyDepositCount := by
      by_cases hpos : 0 < k
      · have e := resetWindow_same_day a x (by rw [hx]; exact hl hpos)
        rw [e]
        exact hk
      · have hk0' : k = 0 := by omega
        rcases resetWindow_cases a x with e | e | e
        · rw [e]; exact hk
        · rw [e, hk0']
        · rw [e, hk0']
    rw [accepted_cons]
    show _ ≤ (depositAll (a.Deposit x).1 ts).1.DailyDepositCount
      ∧ (_ → (depositAll (a.Deposit x).1 ts).1.LastDeposit = Transaction.zero
          ∨ (depositAll (a.Deposit x).1 ts).1.LastDeposit.Time.days = d)
    cases hb : (a.Deposit x).2 with
    | false =>
      have e : (a.Deposit x).1 = a.resetWindow x := evaluate_of_false _ x hb
      have h := ih (a.Deposit x).1 k hts hk0 (by rw [e]; exact hr) (by rw [e, f2]; exact hl)
      simpa using h
    | true =>
      have e := evaluate_of_true (a.resetWindow x) x hb
      have e1 : (a.Deposit x).1.DailyDepositCount = (a.resetWindow x).DailyDepositCount + 1 := by
        unfold Account.Deposit; rw [e]
      have e2 : (a.Deposit x).1.LastDeposit = x := by
        unfold Account.Deposit; rw [e]
      have h := ih (a.Deposit x).1 (k + 1) hts (by omega) (by rw [e1]; omega)
        (fun _ => Or.inr (by rw [e2]; exact hx))
      simp only [if_true, List.singleton_append, List.length_cons, Nat.cast_add, Nat.cast_one]
      have h1 : k + (((accepted (a.Deposit x).1 ts).length : Int) + 1)
          = k + 1 + ((accepted (a.Deposit x).1 ts).length : Int) := by ring
      rw [h1]
      exact h

/-- The daily-only reset, as an equation. -/
theorem resetWindow_new_day (a : Account) (t : Transaction)
    (hlast : a.LastDeposit ≠ Transaction.zero)
    (hy : a.LastDeposit.Time.Year = t.Time.Year)
    (hm : a.LastDeposit.Time.Month = t.Time.Month)
    (hw : a.LastDeposit.Time.ISOWeek.2 = t.Time.ISOWeek.2)
    (hd : a.LastDeposit.Time.Day ≠ t.Time.Day) :
    a.resetWindow t = { a with DailyDepositVelocity := 0, DailyDepositCount := 0 } := by
  have hc : ¬ (a.LastDeposit.Time.Year ≠ t.Time.Year
      ∨ a.LastDeposit.Time.Month ≠ t.Time.Month
      ∨ a.LastDeposit.Time.ISOWeek.2 ≠ t.Time.ISOWeek.2) := by
    rintro (h | h | h)
    · exact h hy
    · exact h hm
    · exact h hw
  unfold Account.resetWindow
  dsimp only
  rw [if_pos hlast, if_neg hc, if_pos hd]

/-- The checks pass: the commit. -/
theorem evaluate_accept (a : Account) (t : Transaction)
    (h1 : a.WeeklyDepositVelocity + t.Amount ≤ a.WeeklyDepositLimit)
    (h2 : a.DailyDepositVelocity + t.Amount ≤ a.DailyDepositLimit)
    (h3 : a.DailyDepositCount + 1 ≤ a.DailyDepositCountLimit) :
    a.evaluate t =
      ({ a with
          WeeklyDepositVelocity := a.WeeklyDepositVelocity + t.Amount
          DailyDepositVelocity := a.DailyDepositVelocity + t.Amount
          DailyDepositCount := a.DailyDepositCount + 1
          Balance := a.Balance + t.Amount
          LastDeposit := t }, true) := by
  unfold Account.evaluate
  rw [if_neg (not_lt.mpr h1), if_neg (not_lt.mpr h2), if_neg (not_lt.mpr h3)]

/-- The daily velocity check fails after the weekly one passed: rejection. -/
theorem evaluate_reject_daily (a : Account) (t : Transaction)
    (h1 : a.WeeklyDepositVelocity + t.Amount ≤ a.WeeklyDepositLimit)
    (h2 : a.DailyDepositVelocity + t.Amount > a.DailyDepositLimit) :
    a.evaluate t = (a, false) := by
  unfold Account.evaluate
  rw [if_neg (not_lt.mpr h1), if_pos h2]

/-- A day and the next day, the first a Monday, are in one ISO week. -/
theorem isoWeek_monday_tuesday (s t : Time) (hmon : s.weekday = 1)
    (hnext : t.days = s.days + 1) : t.ISOWeek = s.ISOWeek := by
  have h : t.thursday = s.thursday := by
    unfold Time.thursday Time.weekday at *
    dsimp only
    rw [hnext]
    split_ifs
    all_goals omega
  unfold Time.ISOWeek
  rw [h]

/-- The four calls of the worked scenario, on whole accounts. -/
theorem scenario_steps (customerID : String) (t1 t2 t3 t4 : Transaction)
    (a1 : t1.Amount = 3000) (a2 : t2.Amount = 3000) (a3 : t3.Amount = 2000)
    (a4 : t4.Amount = 500) (hmon : t1.Time.weekday = 1)
    (h2 : t2.Time.days = t1.Time.days) (h3 : t3.Time.days = t1.Time.days)
    (htue : t4.Time.days = t1.Time.days + 1)
    (hy : t4.Time.Year = t1.Time.Year) (hm : t4.Time.Month = t1.Time.Month) :
    (newAccount customerID 5000 20000 3).Deposit t1
        = (accountWith customerID 3000 3000 3000 1 t1, true)
      ∧ (accountWith customerID 3000 3000 3000 1 t1).Deposit t2
        = (accountWith customerID 3000 3000 3000 1 t1, false)
      ∧ (accountWith customerID 3000 3000 3000 1 t1).Deposit t3
        = (accountWith customerID 5000 5000 5000 2 t3, true)
      ∧ (accountWith customerID 5000 5000 5000 2 t3).Deposit t4
        = (accountWith customerID 5500 500 5500 1 t4, true) := by
  refine ⟨?_, ?_, ?_, ?_⟩
  · unfold Account.Deposit
    rw [resetWindow_same_day _ t1 (Or.inl rfl), evaluate_accept]
    · simp only [newAccount, accountWith, a1]
      norm_num
    · simp only [newAccount, a1]; norm_num
    · simp only [newAccount, a1]; norm_num
    · simp only [newAccount]; norm_num
  · unfold Account.Deposit
    rw [resetWindow_same_day _ t2 (Or.inr h2.symm), evaluate_reject_daily]
    · simp only [accountWith, a2]; norm_num
    · simp only [accountWith, a2]; norm_num
  · unfold Account.Deposit
    rw [resetWindow_same_day _ t3 (Or.inr h3.symm), evaluate_accept]
    · simp only [accountWith, a3]
      norm_num
    · simp only [accountWith, a3]; norm_num
    · simp only [accountWith, a3]; norm_num
    · simp only [accountWith]; norm_num
  · have hne : (accountWith customerID 5000 5000 5000 2 t3).LastDeposit ≠ Transaction.zero := by
      intro h
      have h' : t3.Amount = Transaction.zero.Amount := by
        rw [← h]; rfl
      rw [a3] at h'
      simp [Transaction.zero] at h'
    have e31 : t3.Time.Year = t1.Time.Year := by unfold Time.Year; rw [h3]
    have e32 : t3.Time.Month = t1.Time.Month := by unfold Time.Month; rw [h3]
    have e33 : t3.Time.ISOWeek = t1.Time.ISOWeek := by
      unfold Time.ISOWeek Time.thursday Time.weekday; rw [h3]
    have hw := isoWeek_monday_tuesday t1.Time t4.Time hmon htue
    have hd : t3.Time.Day ≠ t4.Time.Day := by
      intro hd
      have := days_eq_of_date t3.Time t4.Time (e31.trans hy.symm) (e32.trans hm.symm) hd
      omega
    unfold Account.Deposit
    rw [resetWindow_new_day _ t4 hne (e31.trans hy.symm) (e32.trans hm.symm)
      (by rw [show (accountWith customerID 5000 5000 5000 2 t3).LastDeposit = t3 from rfl,
            e33, hw]) hd, evaluate_accept]
    · simp only [accountWith, a4]
      norm_num
    · simp only [accountWith, a4]; norm_num
    · simp only [accountWith, a4]; norm_num
    · simp only [accountWith]; norm_num

/-! ## The loop of `main`: lemmas -/

theorem any_id_iff (ids : List String) (x : String) :
    ids.any (fun tID => tID == x) = true ↔ x ∈ ids := by
  rw [List.any_eq_true]
  constructor
  · rintro ⟨y, hy, h⟩
    rw [beq_iff_eq] at h
    rw [← h]
    exact hy
  · intro h
    exact ⟨x, h, beq_self_eq_true x⟩

/-- An input line whose id is in `transactionIDs` changes nothing. -/
theorem iteration_duplicate (parseAmount : String → Option ℚ) (s : LoopState)
    (t : Transaction) (h : t.ID ∈ s.transactionIDs) :
    iteration parseAmount s t = (s, Status.goesOn) := by
  unfold iteration
  rw [if_pos ((any_id_iff _ _).mpr h)]

/-- An input line with a new id, an amount that parses and a test line that
decodes: `Deposit` is called once, on the account of the customer. -/
theorem iteration_fresh (parseAmount : String → Option ℚ) (s : LoopState)
    (t : Transaction) (amount : ℚ) (test : Test) (rest : List (Option Test))
    (h : t.ID ∉ s.transactionIDs) (hp : parseAmount t.RawAmount = some amount)
    (ht : s.tests = some test :: rest) :
    (iteration parseAmount s t).1.customers
        = (fun id => if id = t.CustomerID then
            some ((customerAccount s.customers t.CustomerID).Deposit
              { t with Amount := amount }).1
          else s.customers id)
      ∧ (iteration parseAmount s t).1.calls = s.calls ++ [{ t with Amount := amount }]
      ∧ (((iteration parseAmount s t).2 = Status.goesOn
            ∧ (iteration parseAmount s t).1.transactionIDs = s.transactionIDs ++ [t.ID])
          ∨ ((iteration parseAmount s t).2 = Status.mismatch
            ∧ (iteration parseAmount s t).1.transactionIDs = s.transactionIDs)) := by
  have hn : ¬ (s.transactionIDs.any (fun tID => tID == t.ID) = true) :=
    fun hc => h ((any_id_iff _ _).mp hc)
  unfold iteration
  rw [if_neg hn]
  simp only [hp, ht]
  split_ifs
  · exact ⟨rfl, rfl, Or.inr ⟨rfl, rfl⟩⟩
  · exact ⟨rfl, rfl, Or.inr ⟨rfl, rfl⟩⟩
  · exact ⟨rfl, rfl, Or.inl ⟨rfl, rfl⟩⟩

/-- The three ways an iteration can go. -/
theorem iteration_cases (parseAmount : String → Option ℚ) (s : LoopState) (t : Transaction) :
    (t.ID ∈ s.transactionIDs ∧ iteration parseAmount s t = (s, Status.goesOn))
      ∨ iteration parseAmount s t = (s, Status.panicked)
      ∨ ∃ (amount : ℚ) (test : Test) (rest : List (Option Test)),
          t.ID ∉ s.transactionIDs ∧ parseAmount t.RawAmount = some amount
            ∧ s.tests = some test :: rest := by
  by_cases h : t.ID ∈ s.transactionIDs
  · exact Or.inl ⟨h, iteration_duplicate parseAmount s t h⟩
  · have hn : ¬ (s.transactionIDs.any (fun tID => tID == t.ID) = true) :=
      fun hc => h ((any_id_iff _ _).mp hc)
    cases hp : parseAmount t.RawAmount with
    | none =>
      right; left
      unfold iteration
      rw [if_neg hn]
      simp only [hp]
    | some amount =>
      cases ht : s.tests with
      | nil =>
        right; left
        unfold iteration
        rw [if_neg hn]
        simp only [hp, ht]
      | cons x rest =>
        cases x with
        | none =>
          right; left
          unfold iteration
          rw [if_neg hn]
          simp only [hp, ht]
        | some test => exact Or.inr (Or.inr ⟨amount, test, rest, h, rfl, rfl⟩)

/-- An iteration leaves the accounts of the other customers as they are. -/
theorem iteration_other_customers (parseAmount : String → Option ℚ) (s : LoopState)
    (t : Transaction) (id : String) (h : id ≠ t.CustomerID) :
    (iteration parseAmount s t).1.customers id = s.customers id := by
  rcases iteration_cases parseAmount s t with ⟨-, e⟩ | e | ⟨amount, test, rest, h1, h2, h3⟩
  · rw [e]
  · rw [e]
  · rw [(iteration_fresh parseAmount s t amount test rest h1 h2 h3).1]
    simp only [if_neg h]

/-- An iteration removes no account. -/
theorem iteration_keeps_accounts (parseAmount : String → Option ℚ) (s : LoopState)
    (t : Transaction) (id : String) (h : (s.customers id).isSome = true) :
    ((iteration parseAmount s t).1.customers id).isSome = true := by
  rcases iteration_cases parseAmount s t with ⟨-, e⟩ | e | ⟨amount, test, rest, h1, h2, h3⟩
  · rw [e]; exact h
  · rw [e]; exact h
  · rw [(iteration_fresh parseAmount s t amount test rest h1 h2 h3).1]
    dsimp only
    split_ifs
    · rfl
    · exact h

theorem mainLoop_cons (parseAmount : String → Option ℚ) (s : LoopState) (t : Transaction)
    (rest : List (Option Transaction)) :
    mainLoop parseAmount s (some t :: rest)
      = if (iteration parseAmount s t).2 = Status.goesOn then
          mainLoop parseAmount (iteration parseAmount s t).1 rest
        else iteration parseAmount s t := by
  rw [mainLoop]
  rcases hi : iteration parseAmount s t with ⟨s1, st⟩
  cases st
  all_goals simp

/-- Along a run that ends with the input, `transactionIDs` holds the ids of
the calls of `Deposit`, without repetition, every id of the input is among
them, and every call is for an input line with its amount parsed. -/
theorem mainLoop_calls (parseAmount : String → Option ℚ) (inputs : List (Option Transaction)) :
    ∀ s : LoopState,
      s.transactionIDs = s.calls.map (fun t => t.ID) →
      s.transactionIDs.Nodup →
      (mainLoop parseAmount s inputs).2 = Status.inputEnded →
      (mainLoop parseAmount s inputs).1.transactionIDs
          = (mainLoop parseAmount s inputs).1.calls.map (fun t => t.ID)
        ∧ (mainLoop parseAmount s inputs).1.transactionIDs.Nodup
        ∧ (∀ x ∈ s.transactionIDs, x ∈ (mainLoop parseAmount s inputs).1.transactionIDs)
        ∧ (∀ t, some t ∈ inputs → t.ID ∈ (mainLoop parseAmount s inputs).1.transactionIDs)
        ∧ (∀ c ∈ (mainLoop parseAmount s inputs).1.calls,
            c ∈ s.calls ∨ ∃ t amount, some t ∈ inputs
              ∧ parseAmount t.RawAmount = some amount ∧ c = { t with Amount := amount }) := by
  induction inputs with
  | nil =>
    intro s h1 h2 _
    exact ⟨h1, h2, fun x hx => hx, fun t ht => absurd ht (List.not_mem_nil _),
      fun c hc => Or.inl hc⟩
  | cons x rest ih =>
    intro s h1 h2 hend
    cases x with
    | none =>
      rw [mainLoop] at hend
      exact absurd hend (by simp)
    | some t =>
      rw [mainLoop_cons] at hend ⊢
      rcases iteration_cases parseAmount s t with ⟨hd, e⟩ | e | ⟨amount, test, tl, f1, f2, f3⟩
      · rw [e] at hend ⊢
        simp only [if_true] at hend ⊢
        obtain ⟨g1, g2, g3, g4, g5⟩ := ih s h1 h2 hend
        refine ⟨g1, g2, g3, ?_, ?_⟩
        · intro u hu
          rcases List.mem_cons.mp hu with hu | hu
          · rw [Option.some.inj hu]
            exact g3 _ hd
          · exact g4 u hu
        · intro c hc
          rcases g5 c hc with hc | ⟨u, am, hu, hp, hc⟩
          · exact Or.inl hc
          · exact Or.inr ⟨u, am, List.mem_cons_of_mem _ hu, hp, hc⟩
      · rw [e] at hend
        rw [if_neg (by simp)] at hend
        exact absurd hend (by simp)
      · obtain ⟨-, k2, k3⟩ := iteration_fresh parseAmount s t amount test tl f1 f2 f3
        rcases k3 with ⟨k3, k4⟩ | ⟨k3, -⟩
        · rw [if_pos k3] at hend ⊢
          have i1 : (iteration parseAmount s t).1.transactionIDs
              = (iteration parseAmount s t).1.calls.map (fun t => t.ID) := by
            rw [k4, k2, h1]
            simp
          have i2 : (iteration parseAmount s t).1.transactionIDs.Nodup := by
            rw [k4]
            refine List.Nodup.append h2 (List.nodup_singleton _) ?_
            intro y hy hy2
            rw [List.mem_singleton.mp hy2] at hy
            exact f1 hy
          obtain ⟨g1, g2, g3, g4, g5⟩ := ih (iteration parseAmount s t).1 i1 i2 hend
          refine ⟨g1, g2, ?_, ?_, ?_⟩
          · intro y hy
            exact g3 y (by rw [k4]; exact List.mem_append_left _ hy)
          · intro u hu
            rcases List.mem_cons.mp hu with hu | hu
            · rw [Option.some.inj hu]
              exact g3 _ (by rw [k4]; simp)
            · exact g4 u hu
          · intro c hc
            rcases g5 c hc with hc | ⟨u, am, hu, hp, hc⟩
            · rw [k2] at hc
              rcases List.mem_append.mp hc with hc | hc
              · exact Or.inl hc
              · exact Or.inr ⟨t, amount, List.mem_cons_self _ _, f2, List.mem_singleton.mp hc⟩
            · exact Or.inr ⟨u, am, List.mem_cons_of_mem _ hu, hp, hc⟩
        · rw [if_neg (by rw [k3]; simp)] at hend
          rw [k3] at hend
          exact absurd hend (by simp)

/-- The loop on the example: it ends with the input, `Deposit` is called for
the ids 1, 2 and 3, once each, and customer `d` has an account with a balance
of 100. -/
theorem mainLoop_example :
    (mainLoop exampleParse (initialState exampleTests) exampleInput).2 = Status.inputEnded
      ∧ (mainLoop exampleParse (initialState exampleTests) exampleInput).1.calls.map
          (fun t => t.ID) = ["1", "2", "3"]
      ∧ (mainLoop exampleParse (initialState exampleTests) exampleInput).1.transactionIDs
          = ["1", "2", "3"]
      ∧ ((mainLoop exampleParse (initialState exampleTests) exampleInput).1.customers "d").map
          (fun a => a.Balance) = some 100
      ∧ ((mainLoop exampleParse (initialState exampleTests) exampleInput).1.customers "c").map
          (fun a => a.Balance) = some 3000 := by
  decide!

/-! ## Claims, continued -/

/-- C11, idempotent rejection. When `Deposit` returns false for a transaction,
a second call of `Deposit` for the same transaction on the resulting account
returns false again and leaves the account as the first call left it, field
for field. -/
theorem rejection_idempotent (a : Account) (t : Transaction)
    (h : (a.Deposit t).2 = false) :
    ((a.Deposit t).1.Deposit t).2 = false
      ∧ ((a.Deposit t).1.Deposit t).1 = (a.Deposit t).1 := by
  have e : (a.Deposit t).1 = a.resetWindow t := evaluate_of_false _ t h
  have e2 : (a.Deposit t).1.Deposit t = a.Deposit t := by
    rw [e]
    unfold Account.Deposit
    rw [resetWindow_idem]
  rw [e2]
  exact ⟨h, rfl⟩

theorem rejection_idempotent_witness :
    ((newAccount "c" 5000 20000 3).Deposit (tx "1" 6000 (mkTime 738915 12 0 none))).2 = false
      ∧ (((newAccount "c" 5000 20000 3).Deposit
            (tx "1" 6000 (mkTime 738915 12 0 none))).1.Deposit
          (tx "1" 6000 (mkTime 738915 12 0 none))).2 = false :=
  ⟨by decide!,
   (rejection_idempotent (newAccount "c" 5000 20000 3)
      (tx "1" 6000 (mkTime 738915 12 0 none)) (by decide!)).1⟩

/-- C12, monotonic accounting. For every sequence of transactions applied in
order by `Deposit` to a newly created account, the final balance is the sum of
the amounts of exactly the transactions for which `Deposit` returned true. -/
theorem balance_is_sum_of_accepted (customerID : String) (dl wl : ℚ) (cl : Int)
    (ts : List Transaction) :
    (depositAll (newAccount customerID dl wl cl) ts).1.Balance
      = amountSum
          (((ts.zip (depositAll (newAccount customerID dl wl cl) ts).2).filter
            (fun p => p.2)).map (fun p => p.1)) := by
  rw [← accepted_eq_filter, depositAll_balance]
  show (0 : ℚ) + _ = _
  rw [zero_add]

/-- C13 as stated fails: no sequence of positive-amount transactions applied
by `Deposit` to a newly created account leaves the weekly velocity below the
daily velocity. -/
theorem weekly_below_daily_unreachable :
    ¬ ∃ (customerID : String) (dl wl : ℚ) (cl : Int) (ts : List Transaction),
        (∀ t ∈ ts, 0 < t.Amount)
          ∧ (depositAll (newAccount customerID dl wl cl) ts).1.WeeklyDepositVelocity
              < (depositAll (newAccount customerID dl wl cl) ts).1.DailyDepositVelocity := by
  rintro ⟨customerID, dl, wl, cl, ts, hpos, hlt⟩
  have h := depositAll_counters ts (newAccount customerID dl wl cl)
    (fun t ht => le_of_lt (hpos t ht)) (newAccount_counters customerID dl wl cl)
  exact absurd hlt (not_lt.mpr h.2.1)

/-- C13, amended: the weekly velocity is never below the daily velocity. For
every sequence of transactions with non-negative amounts applied by `Deposit`
to a newly created account, the account afterwards has a daily velocity that
is at most its weekly velocity. -/
theorem daily_le_weekly (customerID : String) (dl wl : ℚ) (cl : Int)
    (ts : List Transaction) (hamt : ∀ t ∈ ts, 0 ≤ t.Amount) :
    (depositAll (newAccount customerID dl wl cl) ts).1.DailyDepositVelocity
      ≤ (depositAll (newAccount customerID dl wl cl) ts).1.WeeklyDepositVelocity :=
  (depositAll_counters ts (newAccount customerID dl wl cl) hamt
    (newAccount_counters customerID dl wl cl)).2.1

theorem daily_le_weekly_witness :
    (∀ t ∈ mondayTuesdayFeed, 0 ≤ t.Amount)
      ∧ (depositAll (newAccount "c" 5000 20000 3) mondayTuesdayFeed).1.DailyDepositVelocity
          ≤ (depositAll (newAccount "c" 5000 20000 3)
              mondayTuesdayFeed).1.WeeklyDepositVelocity :=
  ⟨by decide!, daily_le_weekly "c" 5000 20000 3 mondayTuesdayFeed (by decide!)⟩

/-- C14, non-negative counters. For every sequence of transactions with
positive (or zero) amounts applied by `Deposit` to a newly created account,
the daily velocity, the weekly velocity and the daily count are non-negative
after every transaction, that is after every prefix `ts.take n` of the
sequence. -/
theorem counters_nonneg (customerID : String) (dl wl : ℚ) (cl : Int)
    (ts : List Transaction) (hamt : ∀ t ∈ ts, 0 ≤ t.Amount) (n : Nat) :
    0 ≤ (depositAll (newAccount customerID dl wl cl) (ts.take n)).1.DailyDepositVelocity
      ∧ 0 ≤ (depositAll (newAccount customerID dl wl cl) (ts.take n)).1.WeeklyDepositVelocity
      ∧ 0 ≤ (depositAll (newAccount customerID dl wl cl) (ts.take n)).1.DailyDepositCount := by
  have h := depositAll_counters (ts.take n) (newAccount customerID dl wl cl)
    (fun t ht => hamt t (List.mem_of_mem_take ht)) (newAccount_counters customerID dl wl cl)
  exact ⟨h.1, le_trans h.1 h.2.1, h.2.2⟩

theorem counters_nonneg_witness :
    (∀ t ∈ mondayTuesdayFeed, 0 ≤ t.Amount)
      ∧ 0 ≤ (depositAll (newAccount "c" 5000 20000 3)
              (mondayTuesdayFeed.take 3)).1.DailyDepositVelocity
      ∧ 0 ≤ (depositAll (newAccount "c" 5000 20000 3)
              (mondayTuesdayFeed.take 3)).1.WeeklyDepositVelocity
      ∧ 0 ≤ (depositAll (newAccount "c" 5000 20000 3)
              (mondayTuesdayFeed.take 3)).1.DailyDepositCount :=
  ⟨by decide!, counters_nonneg "c" 5000 20000 3 mondayTuesdayFeed (by decide!) 3⟩

/-- C15 as stated fails: on a new account with the limits 5000, 20000 and 3,
of the four attempts of `fourAttemptsFeed`, all dated January 29, 2024, the
second is rejected and the fourth is accepted: the daily count is of accepted
deposits and stands at 2 when the fourth attempt comes. -/
theorem fourth_attempt_accepted :
    (newAccount "c" 5000 20000 3).DailyDepositCountLimit = 3
      ∧ fourAttemptsFeed.map (fun t => (t.Time.Year, t.Time.Month, t.Time.Day))
          = [(2024, 1, 29), (2024, 1, 29), (2024, 1, 29), (2024, 1, 29)]
      ∧ (depositAll (newAccount "c" 5000 20000 3) fourAttemptsFeed).2
          = [true, false, true, true]
      ∧ (depositAll (newAccount "c" 5000 20000 3) (fourAttemptsFeed.take 3)).1.DailyDepositCount
          = 2 := by
  decide!

/-- C15, amended: the attempt after three accepted deposits of the day. For
every account with a daily count limit of 3 and a non-negative daily count,
and for attempts all dated on the calendar day of a transaction `t`, if
`Deposit` accepts three or more of them, then it rejects `t` after them,
whatever the amount and the velocities: the daily count plus one exceeds the
limit. -/
theorem attempt_after_three_accepted (a : Account) (ts : List Transaction) (t : Transaction)
    (hcl : a.DailyDepositCountLimit = 3) (hc : 0 ≤ a.DailyDepositCount)
    (hday : ∀ x ∈ ts, x.Time.Year = t.Time.Year ∧ x.Time.Month = t.Time.Month
              ∧ x.Time.Day = t.Time.Day)
    (h3 : 3 ≤ (accepted a ts).length) :
    ((depositAll a ts).1.Deposit t).2 = false
      ∧ ((depositAll a ts).1.resetWindow t).DailyDepositCount + 1
          > ((depositAll a ts).1.resetWindow t).DailyDepositCountLimit := by
  have hd : ∀ x ∈ ts, x.Time.days = t.Time.days :=
    fun x hx => days_eq_of_date _ _ (hday x hx).1 (hday x hx).2.1 (hday x hx).2.2
  obtain ⟨c1, c2⟩ := count_same_day t.Time.days ts a 0 hd (le_refl _) hc
    (fun h => absurd h (lt_irrefl _))
  have hlen : (3 : Int) ≤ ((accepted a ts).length : Int) := by exact_mod_cast h3
  have e := resetWindow_same_day (depositAll a ts).1 t (c2 (by omega))
  have hlim : (depositAll a ts).1.DailyDepositCountLimit = 3 := by
    rw [(depositAll_frame ts a).2.2.2, hcl]
  have hgt : (depositAll a ts).1.DailyDepositCount + 1
      > (depositAll a ts).1.DailyDepositCountLimit := by
    rw [hlim]; omega
  rw [e]
  refine ⟨?_, hgt⟩
  unfold Account.Deposit
  rw [e]
  unfold Account.evaluate
  split_ifs
  all_goals rfl

theorem attempt_after_three_accepted_witness :
    (newAccount "c" 5000 20000 3).DailyDepositCountLimit = 3
      ∧ 3 ≤ (accepted (newAccount "c" 5000 20000 3) threeAcceptedFeed).length
      ∧ ((depositAll (newAccount "c" 5000 20000 3) threeAcceptedFeed).1.Deposit
          (tx "4" 100 (mkTime 738913 12 0 none))).2 = false :=
  ⟨by decide!, by decide!,
   (attempt_after_three_accepted (newAccount "c" 5000 20000 3) threeAcceptedFeed
      (tx "4" 100 (mkTime 738913 12 0 none)) (by decide!) (by decide!) (by decide!)
      (by decide!)).1⟩

/-- C16, worked scenario. On a newly created account with the limits 5000,
20000 and 3, deposits of 3000, 3000 and 2000 dated on the same Monday followed
by a deposit of 500 dated on the next day, the Tuesday, in the same year and
month, are decided accept, reject, accept, accept. After the first the daily
velocity is 3000, the weekly velocity 3000 and the count 1; the second leaves
the account unchanged; after the third the daily velocity is 5000 and the
count 2; after the fourth the daily velocity is 500, the count 1 and the
weekly velocity 5500. -/
theorem worked_scenario (customerID : String) (t1 t2 t3 t4 : Transaction)
    (a1 : t1.Amount = 3000) (a2 : t2.Amount = 3000) (a3 : t3.Amount = 2000)
    (a4 : t4.Amount = 500) (hmon : t1.Time.weekday = 1)
    (h2 : t2.Time.days = t1.Time.days) (h3 : t3.Time.days = t1.Time.days)
    (htue : t4.Time.days = t1.Time.days + 1)
    (hy : t4.Time.Year = t1.Time.Year) (hm : t4.Time.Month = t1.Time.Month) :
    (depositAll (newAccount customerID 5000 20000 3) [t1, t2, t3, t4]).2
        = [true, false, true, true]
      ∧ (depositAll (newAccount customerID 5000 20000 3) [t1]).1.DailyDepositVelocity = 3000
      ∧ (depositAll (newAccount customerID 5000 20000 3) [t1]).1.WeeklyDepositVelocity = 3000
      ∧ (depositAll (newAccount customerID 5000 20000 3) [t1]).1.DailyDepositCount = 1
      ∧ (depositAll (newAccount customerID 5000 20000 3) [t1, t2]).1
          = (depositAll (newAccount customerID 5000 20000 3) [t1]).1
      ∧ (depositAll (newAccount customerID 5000 20000 3) [t1, t2, t3]).1.DailyDepositVelocity
          = 5000
      ∧ (depositAll (newAccount customerID 5000 20000 3) [t1, t2, t3]).1.DailyDepositCount = 2
      ∧ (depositAll (newAccount customerID 5000 20000 3)
          [t1, t2, t3, t4]).1.DailyDepositVelocity = 500
      ∧ (depositAll (newAccount customerID 5000 20000 3)
          [t1, t2, t3, t4]).1.DailyDepositCount = 1
      ∧ (depositAll (newAccount customerID 5000 20000 3)
          [t1, t2, t3, t4]).1.WeeklyDepositVelocity = 5500 := by
  obtain ⟨s1, s2, s3, s4⟩ :=
    scenario_steps customerID t1 t2 t3 t4 a1 a2 a3 a4 hmon h2 h3 htue hy hm
  simp only [depositAll, s1, s2, s3, s4]
  simp [accountWith]

theorem worked_scenario_witness :
    (tx "1" 3000 (mkTime 738913 12 0 none)).Time.weekday = 1
      ∧ (tx "4" 500 (mkTime 738914 12 0 none)).Time.days
          = (tx "1" 3000 (mkTime 738913 12 0 none)).Time.days + 1
      ∧ (depositAll (newAccount "c" 5000 20000 3)
          [tx "1" 3000 (mkTime 738913 12 0 none), tx "2" 3000 (mkTime 738913 12 0 none),
           tx "3" 2000 (mkTime 738913 12 0 none), tx "4" 500 (mkTime 738914 12 0 none)]).2
          = [true, false, true, true] :=
  ⟨by decide!, by decide!,
   (worked_scenario "c" (tx "1" 3000 (mkTime 738913 12 0 none))
      (tx "2" 3000 (mkTime 738913 12 0 none)) (tx "3" 2000 (mkTime 738913 12 0 none))
      (tx "4" 500 (mkTime 738914 12 0 none)) (by decide!) (by decide!) (by decide!)
      (by decide!) (by decide!) (by decide!) (by decide!) (by decide!) (by decide!)
      (by decide!)).1⟩

/-- C17, order sensitivity. There are limits (5000, 6000 and 3) and two
transactions, `T1` of 5000 on Monday, January 29, 2024 and `T2` of 2000 on the
next day, in the same ISO week and the same month, such that `Deposit` applied
to a newly created account for `T1` and then `T2` rejects `T2`, while applied
first for `T2` to a newly created account with the same limits it accepts
`T2`. -/
theorem order_sensitivity :
    ∃ (dl wl : ℚ) (cl : Int) (T1 T2 : Transaction),
      T2.Time.days = T1.Time.days + 1
        ∧ T2.Time.ISOWeek = T1.Time.ISOWeek
        ∧ T2.Time.Year = T1.Time.Year
        ∧ T2.Time.Month = T1.Time.Month
        ∧ (depositAll (newAccount "c" dl wl cl) [T1, T2]).2 = [true, false]
        ∧ ((newAccount "c" dl wl cl).Deposit T2).2 = true :=
  ⟨5000, 6000, 3, tx "1" 5000 (mkTime 738913 12 0 none), tx "2" 2000 (mkTime 738914 12 0 none),
    by decide!⟩

/-- C18, lazy account creation and customer independence. When the loop of
`main` handles a transaction (its id is new, its amount parses and a test line
is there) whose customer has no account in `customers`, the account it puts in
the map is the result of `Deposit` on a new account with that customer id, a
balance of 0, the three counters at 0, the zero `Transaction` as last deposit
and the limits 5000, 20000 and 3. Whatever the iteration does, it leaves the
account of every other customer as it is and removes no account. -/
theorem lazy_creation_and_independence (parseAmount : String → Option ℚ) (s : LoopState)
    (t : Transaction) :
    (∀ (amount : ℚ) (test : Test) (rest : List (Option Test)),
        t.ID ∉ s.transactionIDs → parseAmount t.RawAmount = some amount →
        s.tests = some test :: rest → s.customers t.CustomerID = none →
        (iteration parseAmount s t).1.customers t.CustomerID
            = some ((newAccount t.CustomerID 5000 20000 3).Deposit
                { t with Amount := amount }).1
          ∧ (iteration parseAmount s t).1.calls = s.calls ++ [{ t with Amount := amount }])
      ∧ newAccount t.CustomerID 5000 20000 3
          = { CustomerID := t.CustomerID
              Balance := 0
              DailyDepositLimit := 5000
              WeeklyDepositLimit := 20000
              DailyDepositVelocity := 0
              WeeklyDepositVelocity := 0
              DailyDepositCountLimit := 3
              DailyDepositCount := 0
              LastDeposit := Transaction.zero }
      ∧ (∀ id : String, id ≠ t.CustomerID →
          (iteration parseAmount s t).1.customers id = s.customers id)
      ∧ (∀ id : String, (s.customers id).isSome = true →
          ((iteration parseAmount s t).1.customers id).isSome = true) := by
  refine ⟨?_, rfl, iteration_other_customers parseAmount s t,
    iteration_keeps_accounts parseAmount s t⟩
  intro amount test rest h1 h2 h3 h4
  obtain ⟨k1, k2, -⟩ := iteration_fresh parseAmount s t amount test rest h1 h2 h3
  refine ⟨?_, k2⟩
  rw [k1]
  simp only [if_true]
  unfold customerAccount
  rw [h4]
  rfl

/-- C19, prior-deposit sentinel. When `Deposit` accepts a transaction `t` with
a positive amount, the last deposit of the account afterwards is `t` and is
not the zero `Transaction`, so the window reset of the next call compares the
next transaction with `t`: all three counters are zeroed if the year, the
month or the ISO week number of `t` differs from that of the next transaction,
the daily counters if only the day of the month differs, and nothing
otherwise. On a newly created account the last deposit is the zero
`Transaction`. -/
theorem last_deposit_sentinel (a : Account) (t : Transaction)
    (hpos : 0 < t.Amount) (hacc : (a.Deposit t).2 = true) :
    (a.Deposit t).1.LastDeposit = t
      ∧ (a.Deposit t).1.LastDeposit ≠ Transaction.zero
      ∧ (∀ u : Transaction,
          (a.Deposit t).1.resetWindow u =
            if t.Time.Year ≠ u.Time.Year ∨ t.Time.Month ≠ u.Time.Month
                ∨ t.Time.ISOWeek.2 ≠ u.Time.ISOWeek.2 then
              { (a.Deposit t).1 with
                WeeklyDepositVelocity := 0
                DailyDepositVelocity := 0
                DailyDepositCount := 0 }
            else if t.Time.Day ≠ u.Time.Day then
              { (a.Deposit t).1 with
                DailyDepositVelocity := 0
                DailyDepositCount := 0 }
            else (a.Deposit t).1)
      ∧ ∀ (customerID : String) (dl wl : ℚ) (cl : Int),
          (newAccount customerID dl wl cl).LastDeposit = Transaction.zero := by
  have e := evaluate_of_true (a.resetWindow t) t hacc
  have hl : (a.Deposit t).1.LastDeposit = t := by
    unfold Account.Deposit; rw [e]
  have hne : (a.Deposit t).1.LastDeposit ≠ Transaction.zero := by
    rw [hl]
    intro h
    rw [h] at hpos
    exact absurd hpos (by simp [Transaction.zero])
  refine ⟨hl, hne, ?_, fun _ _ _ _ => rfl⟩
  intro u
  unfold Account.resetWindow
  dsimp only
  rw [if_pos hne, hl]

theorem last_deposit_sentinel_witness :
    0 < (tx "1" 3000 (mkTime 738915 12 0 none)).Amount
      ∧ ((newAccount "c" 5000 20000 3).Deposit (tx "1" 3000 (mkTime 738915 12 0 none))).2 = true
      ∧ ((newAccount "c" 5000 20000 3).Deposit
          (tx "1" 3000 (mkTime 738915 12 0 none))).1.LastDeposit ≠ Transaction.zero :=
  ⟨by decide!, by decide!,
   (last_deposit_sentinel (newAccount "c" 5000 20000 3)
      (tx "1" 3000 (mkTime 738915 12 0 none)) (by decide!) (by decide!)).2.1⟩

/-- C20, duplicate suppression. In the loop of `main`, an input line whose id
is in `transactionIDs` (the ids of the lines processed before) leaves the
whole state as it is: `Deposit` is not called and no account is created or
changed. An input line with a new id that the loop handles (its amount parses
and a test line is there) is passed to `Deposit` once. Over a run from the
start that ends with the input, `Deposit` is called for every id of the input,
for no id twice, and only for input lines. -/
theorem duplicate_suppression (parseAmount : String → Option ℚ) (s : LoopState)
    (t : Transaction) :
    (t.ID ∈ s.transactionIDs → iteration parseAmount s t = (s, Status.goesOn))
      ∧ (∀ (amount : ℚ) (test : Test) (rest : List (Option Test)),
          t.ID ∉ s.transactionIDs → parseAmount t.RawAmount = some amount →
          s.tests = some test :: rest →
          (iteration parseAmount s t).1.calls = s.calls ++ [{ t with Amount := amount }])
      ∧ (∀ (tests : List (Option Test)) (inputs : List (Option Transaction)),
          (mainLoop parseAmount (initialState tests) inputs).2 = Status.inputEnded →
          ((mainLoop parseAmount (initialState tests) inputs).1.calls.map
              (fun c => c.ID)).Nodup
            ∧ (∀ u, some u ∈ inputs →
                u.ID ∈ (mainLoop parseAmount (initialState tests) inputs).1.calls.map
                  (fun c => c.ID))
            ∧ (∀ c ∈ (mainLoop parseAmount (initialState tests) inputs).1.calls,
                ∃ u amount, some u ∈ inputs ∧ parseAmount u.RawAmount = some amount
                  ∧ c = { u with Amount := amount })) := by
  refine ⟨iteration_duplicate parseAmount s t, ?_, ?_⟩
  · intro amount test rest h1 h2 h3
    exact (iteration_fresh parseAmount s t amount test rest h1 h2 h3).2.1
  · intro tests inputs hend
    obtain ⟨g1, g2, -, g4, g5⟩ :=
      mainLoop_calls parseAmount inputs (initialState tests) rfl List.nodup_nil hend
    rw [← g1]
    refine ⟨g2, g4, ?_⟩
    intro c hc
    rcases g5 c hc with h | h
    · exact absurd h (List.not_mem_nil _)
    · exact h


end DepositLimits
